import Mathlib

/-!
# sous: detection protocol, build numbering, targets, checks and commands

A shallow embedding of `core/buildpacks.go`, `core/detect.go`,
`build_context.go`, `_packs/nodejs/app_target.go`, `deploy/contract.go` and
`util/shell`.  Go strings are lists of characters, Go `error` values are
either a `BuildpackError` or an error of some other dynamic type, and a call
that ends the process (`cli.Fatal`, `cli.Fatalf`, `dief`) is an explicit
outcome.  Everything that lives outside the repository sources (the semver
library, the catalog lookup, `strconv.Quote`, the subprocess itself) is a
field of `Env`.
-/

namespace Sous

/-- Go `string`, as the list of its characters. -/
abbrev Str := List Char

/-! ## The Go standard library functions the sources call -/

/-- `strings.Split(s, " ")`: cut at every single space; the result always has
one more element than `s` has spaces (so `[""]` for the empty string). -/
def splitSpace : Str → List Str
  | [] => [[]]
  | c :: cs =>
    if c = ' ' then [] :: splitSpace cs
    else match splitSpace cs with
      | [] => [[c]]
      | p :: ps => (c :: p) :: ps

/-- `strings.TrimLeft(s, cutset)`. -/
def TrimLeft (s cutset : Str) : Str :=
  s.dropWhile (fun c => decide (c ∈ cutset))

/-- `strings.TrimRight(s, cutset)`. -/
def TrimRight (s cutset : Str) : Str :=
  (s.reverse.dropWhile (fun c => decide (c ∈ cutset))).reverse

/-- `strings.Trim(s, cutset)`: drop every leading and every trailing character
that belongs to `cutset`. -/
def Trim (s cutset : Str) : Str :=
  TrimRight (TrimLeft s cutset) cutset

/-- The `%!(EXTRA string=a, string=b)` diagnostic `fmt` appends when operands
are left over; nothing when none is. -/
def extraOperands : List Str → Str
  | [] => []
  | a :: as =>
    "%!(EXTRA ".toList ++ "string=".toList ++ a
      ++ (as.map (fun x => ", string=".toList ++ x)).flatten ++ ")".toList

/-- How `fmt` prints one string operand under a verb: `%s` and `%v` copy it,
`%q` quotes it with `strconv.Quote`, any other verb gives the bad-verb
diagnostic `%!d(string=...)`. -/
def printOperand (Quote : Str → Str) (verb : Char) (a : Str) : Str :=
  if verb = 's' ∨ verb = 'v' then a
  else if verb = 'q' then Quote a
  else "%!".toList ++ [verb] ++ "(string=".toList ++ a ++ ")".toList

/-- `fmt.Sprintf(format, a...)` for string operands (an `error` operand is
its `Error()` text) and directives made of `%` and one verb character, which
is all the format strings of the sources use: `%%`, `%s`, `%v`, `%q`, the
diagnostics for a bad verb, a missing operand (`%!s(MISSING)`), a format that
ends in `%` (`%!(NOVERB)`) and left-over operands.  Flags, widths, precisions,
argument indexes and the hexadecimal verbs are not modelled: `plainFormat`
below tells the formats that are covered. -/
def Sprintf (Quote : Str → Str) : Str → List Str → Str
  | [], a => extraOperands a
  | c :: rest, a =>
    if c ≠ '%' then c :: Sprintf Quote rest a
    else match rest with
      | [] => "%!(NOVERB)".toList ++ extraOperands a
      | verb :: rest2 =>
        if verb = '%' then '%' :: Sprintf Quote rest2 a
        else match a with
          | [] => "%!".toList ++ [verb] ++ "(MISSING)".toList ++ Sprintf Quote rest2 []
          | x :: xs => printOperand Quote verb x ++ Sprintf Quote rest2 xs

/-- The formats on which `Sprintf` above is `fmt.Sprintf` for string operands:
every `%` is the last character or is followed by a character that is neither
a flag (`#`, `0`, `+`, `-`, space), nor the start of a width, precision or
argument index (a digit, `*`, `.`, `[`), nor one of the verbs `x`, `X`, `T`. -/
def plainFormat : Str → Bool
  | [] => true
  | c :: rest =>
    if c ≠ '%' then plainFormat rest
    else match rest with
      | [] => true
      | verb :: rest2 =>
        decide (verb ∉ "#0+- 123456789*.[xXT".toList) && plainFormat rest2

/-- Width of the Go `int` type on the 64-bit platforms the tool is built for. -/
def intSize : Nat := 64

/-- Largest `int`. -/
def maxInt : Int := 2 ^ (intSize - 1) - 1

/-- Smallest `int`. -/
def minInt : Int := -(2 ^ (intSize - 1))

/-- Two-complement wrap-around of a mathematical integer into the `int`
range, which is what Go arithmetic on `int` does on overflow. -/
def wrapInt (n : Int) : Int :=
  (n - minInt) % (2 ^ intSize) + minInt

/-- Decimal value of a digit string, most significant digit first. -/
def digitsValue (ds : Str) : Nat :=
  ds.foldl (fun acc c => acc * 10 + (c.toNat - 48)) 0

/-- `strconv.Atoi(s)`: an optional sign, then one or more decimal digits and
nothing else; the value has to fit an `int`.  `none` stands for the returned
error. -/
def Atoi (s : Str) : Option Int :=
  let neg := s.head? = some '-'
  let ds := if s.head? = some '-' ∨ s.head? = some '+' then s.tail else s
  if ds = [] ∨ ¬ (ds.all Char.isDigit = true) then none
  else
    let n : Int := if neg then -(digitsValue ds : Int) else (digitsValue ds : Int)
    if minInt ≤ n ∧ n ≤ maxInt then some n else none

/-- `strconv.Itoa(n)`: the decimal text of an `int`, with a leading `-` for a
negative one. -/
def Itoa (n : Int) : Str :=
  if n < 0 then '-' :: Nat.toDigits 10 n.natAbs else Nat.toDigits 10 n.natAbs

/-! ## core/buildpacks.go -/

/-- The anonymous `Scripts` struct of a `Buildpack`. -/
structure BuildpackScripts where
  Common : Str
  Base : Str
  Command : Str
  Compile : Str
  Detect : Str
  Test : Str
  ListBaseimage : Str

/-- `Buildpack`; `C` is the type of the catalog behind `*StackVersions`,
which is declared outside the sources at hand. -/
structure Buildpack (C : Type) where
  Name : Str
  Desc : Str
  StackVersions : C
  DefaultStackVersion : Str
  Scripts : BuildpackScripts

/-- `RunnableBuildpack`; `R` stands for `version.R` and `V` for
`StackVersion`. -/
structure RunnableBuildpack (C R V : Type) extends Buildpack C where
  DetectedStackVersionRange : Str
  ResolvedStackVersionRange : R
  StackVersion : V

/-- `BuildpackError`. -/
structure BuildpackError (C : Type) where
  Buildpack : Buildpack C
  Script : Str
  Message : Str

/-- A Go `error` value as `Detect` returns it: a `BuildpackError`, or an error
of another dynamic type (from `os/exec` or `fmt.Errorf`) with its text. -/
inductive GoError (C : Type) where
  | buildpack (e : BuildpackError C)
  | other (msg : Str)

/-- What running the assembled script file gives: `c.Start()` fails, or the
process runs and `c.Wait()` returns an error (`some`, e.g. a non-zero exit
status) or `nil` (`none`), with the three captured streams. -/
inductive ScriptOutcome where
  | startFailed (err : Str)
  | exited (waitErr : Option Str) (stdout stderr combined : Str)

/-- Everything `Detect` reaches outside the sources at hand: `strconv.Quote`,
`version.NewRange`, `(*StackVersions).GetBestStackVersion`, the outcome of
writing the script `name` with the given contents into `inDir` and executing
it there, and `fmt.Sprintf` on the formats that `Sprintf` above does not
cover (`Format`). -/
structure Env (C R V : Type) where
  Quote : Str → Str
  NewRange : Str → Except Str R
  GetBestStackVersion : C → R → Except Str V
  exec : (inDir name contents : Str) → ScriptOutcome
  Format : Str → List Str → Str

section Core

variable {C R V : Type}

/-- `BuildpackError.Error`. -/
def BuildpackError.Error (E : Env C R V) (bpe : BuildpackError C) : Str :=
  let m := bpe.Message
  let m := if bpe.Script ≠ [] then Sprintf E.Quote "%s; %s".toList [bpe.Script, m] else m
  Sprintf E.Quote "buildpack %s: %s".toList [bpe.Buildpack.Name, m]

/-- `fmt.Sprintf(format, a...)` for string operands and a format that is not a
constant of the sources: the model `Sprintf` on the formats it covers, and
`E.Format` on the others. -/
def Env.Sprintf (E : Env C R V) (format : Str) (a : List Str) : Str :=
  if plainFormat format then Sous.Sprintf E.Quote format a else E.Format format a

/-- `Buildpack.ScriptErr`.  The format is an argument, and at the shape check
of `Detect` it is the output of the script, hence `E.Sprintf`. -/
def Buildpack.ScriptErr (E : Env C R V) (bp : Buildpack C) (scriptName f : Str)
    (a : List Str) : BuildpackError C :=
  let message := E.Sprintf f a
  { Buildpack := bp, Script := scriptName, Message := message }

/-- `Buildpack.ConfigErr`. -/
def Buildpack.ConfigErr (E : Env C R V) (bp : Buildpack C) (f : Str)
    (a : List Str) : BuildpackError C :=
  bp.ScriptErr E [] ("misconfigured; ".toList ++ f) a

/-- `Buildpack.RunScript`. -/
def Buildpack.RunScript (E : Env C R V) (bp : Buildpack C) (name contents inDir : Str) :
    Except Str Str :=
  let contents := Sprintf E.Quote "%s\n\n# base.sh\n%s\n\n# %s\n%s\n".toList
    [bp.Scripts.Common, bp.Scripts.Base, name, contents]
  match E.exec inDir name contents with
  | .startFailed err => .error err
  | .exited (some err) _ _ combined =>
    .error (Sprintf E.Quote "Error: %s; output from %s:\n%s".toList [err, name, combined])
  | .exited none stdout _ _ => .ok (Trim stdout "\n\r\t ".toList)

/-- The first argument of the `bp.ScriptErr` call at the shape check of
`Buildpack.Detect` (the call has no separate script-name argument). -/
def shapeFormat : Str :=
  "returned %q; want \x27%s <stackversion>\x27 where <stackversion> is either \x27default\x27 or semver range".toList

/-- `Buildpack.Detect`. -/
def Buildpack.Detect (E : Env C R V) (bp : Buildpack C) (dirPath : Str) :
    Except (GoError C) (RunnableBuildpack C R V) :=
  match bp.RunScript E "detect.sh".toList bp.Scripts.Detect dirPath with
  | .error err => .error (.other err)
  | .ok detected =>
    match splitSpace detected with
    | [name, detectedVersionRange] =>
      if name ≠ bp.Name then
        .error (.buildpack (bp.ScriptErr E shapeFormat detected [bp.Name]))
      else
        let parsed : Except (GoError C) R :=
          if detectedVersionRange = "default".toList then
            match E.NewRange bp.DefaultStackVersion with
            | .error err => .error (.buildpack (bp.ConfigErr E
                "unable to parse default stack version %q as semver range: %s".toList
                [bp.DefaultStackVersion, err]))
            | .ok r => .ok r
          else
            match E.NewRange detectedVersionRange with
            | .error err => .error (.buildpack (bp.ScriptErr E "detect.sh".toList
                "unable to parse %q as semver range: %s".toList [detectedVersionRange, err]))
            | .ok r => .ok r
        match parsed with
        | .error e => .error e
        | .ok stackVersionRange =>
          match E.GetBestStackVersion bp.StackVersions stackVersionRange with
          | .error err => .error (.buildpack (bp.ConfigErr E
              "unable to determine stack version: %s".toList [err]))
          | .ok stackVersion =>
            .ok { toBuildpack := bp
                  DetectedStackVersionRange := detectedVersionRange
                  ResolvedStackVersionRange := stackVersionRange
                  StackVersion := stackVersion }
    | _ => .error (.buildpack (bp.ScriptErr E shapeFormat detected [bp.Name]))

/-! ## core/detect.go -/

/-- How a call ends: the process is terminated by `cli.Fatal`, `cli.Fatalf`
or `dief` with a message, or the function returns a value. -/
inductive Outcome (α : Type) where
  | fatal (msg : Str)
  | returned (a : α)
  deriving DecidableEq

/-- The struct behind the `*Buildpack` that `DetectProjectType` returns: the
buildpack together with the `DetectedStackVersionRange` the loop assigns
through the pointer (`none` is the zero value of that field). -/
structure DetectedPack (C R V : Type) extends Buildpack C where
  DetectedStackVersionRange : Option (RunnableBuildpack C R V)

/-- The `for _, p := range packs` loop of `DetectProjectType`.  The range
clause declares one variable `p` for the whole loop and every iteration
assigns the next element to it; `pack = &p` stores the address of that one
variable.  The state is therefore whether `pack` is non-nil (`pack`) and the
current contents of `p` (`none` before the first iteration); dereferencing
`pack` reads `p`.  The message of `cli.Fatal(packErr)` is taken to be
`packErr.Error()`. -/
def detectLoop (E : Env C R V) (WorkDir : Str) :
    List (Buildpack C) → Bool → Option (DetectedPack C R V) →
      Outcome (Option (DetectedPack C R V))
  | [], pack, p => .returned (if pack then p else none)
  | q :: rest, pack, _ =>
    let p : DetectedPack C R V := { toBuildpack := q, DetectedStackVersionRange := none }
    match q.Detect E WorkDir with
    | .error (.buildpack packErr) => .fatal (packErr.Error E)
    | .error (.other _) => detectLoop E WorkDir rest pack (some p)
    | .ok versionRange =>
      if pack then
        .fatal (Sprintf E.Quote "multiple project types detected: %s and %s".toList
          [p.Name, p.Name])
      else
        detectLoop E WorkDir rest true
          (some { p with DetectedStackVersionRange := some versionRange })

/-- `Context.DetectProjectType`, with the receiver reduced to its `WorkDir`. -/
def DetectProjectType (E : Env C R V) (WorkDir : Str) (packs : List (Buildpack C)) :
    Outcome (Option (DetectedPack C R V)) :=
  detectLoop E WorkDir packs false none

/-- What an invocation of `DetectProjectType` comes to, leaving aside which
struct the returned pointer designates: the process ends with a message, or
the call returns, with a project type detected (`true`) or nil (`false`). -/
def verdict (o : Outcome (Option (DetectedPack C R V))) : Outcome Bool :=
  match o with
  | .fatal msg => .fatal msg
  | .returned x => .returned x.isSome

end Core

/-! ## build_context.go -/

/-- The part of `GitInfo` that `getBuildNumber` uses: the value of
`CanonicalName()` and the field `CommitSHA`. -/
structure GitInfo where
  CanonicalName : Str
  CommitSHA : Str

/-- One access to the counter storage. -/
inductive StorageOp where
  | ensureDir (path : Str)
  | read (path : Str)
  | write (path data : Str)
  deriving DecidableEq

/-- The durable per-user storage of the build counters: which directories
exist, what each file holds (`none`: no such file), and the accesses made so
far, oldest first. -/
structure Storage where
  dirs : Str → Bool
  files : Str → Option Str
  ops : List StorageOp

/-- Modelled from the spec: `ensureDirExists` is not among the sources.  After
the call the directory exists; the counter files are as before. -/
def ensureDirExists (path : Str) (fs : Storage) : Storage :=
  { fs with dirs := fun p => if p = path then true else fs.dirs p,
            ops := fs.ops ++ [.ensureDir path] }

/-- Modelled from the spec: `readFileString` is not among the sources.  It
gives the contents of the file, or `none` (the `false` result) when there is no
such file. -/
def readFileString (path : Str) (fs : Storage) : Option Str × Storage :=
  (fs.files path, { fs with ops := fs.ops ++ [.read path] })

/-- Modelled from the spec: `writeFile` is not among the sources.  The counter
is persisted as the decimal text of the number, which is what
`readFileString` and `strconv.Atoi` read back. -/
def writeFile (data : Int) (path : Str) (fs : Storage) : Storage :=
  { fs with files := fun p => if p = path then some (Itoa data) else fs.files p,
            ops := fs.ops ++ [.write path (Itoa data)] }

/-- The text of the error `strconv.Atoi` returns for `s`. -/
def atoiError (Quote : Str → Str) (s : Str) : Str :=
  let ds := if s.head? = some '-' ∨ s.head? = some '+' then s.tail else s
  "strconv.Atoi: parsing ".toList ++ Quote s ++
    (if ds = [] ∨ ¬ (ds.all Char.isDigit = true) then ": invalid syntax".toList
     else ": value out of range".toList)

/-- `tryGetBuildNumberFromEnv`; `envBN` is the value of `$BUILD_NUMBER`, empty
when the variable is not set. -/
def tryGetBuildNumberFromEnv (Quote : Str → Str) (envBN : Str) : Outcome (Int × Bool) :=
  if envBN ≠ [] then
    match Atoi envBN with
    | none => .fatal (Sprintf Quote "Unable to parse $BUILD_NUMBER (%s) to int: %s".toList
        [envBN, atoiError Quote envBN])
    | some n => .returned (n, true)
  else .returned (0, false)

/-- `getBuildNumberFromHomeDirectory`: how the call ends and the storage it
leaves. -/
def getBuildNumberFromHomeDirectory (Quote : Str → Str) (fs : Storage) (git : GitInfo) :
    Outcome Int × Storage :=
  let buildNumDir := Sprintf Quote "~/.ot/build_numbers/%s".toList [git.CanonicalName]
  let fs := ensureDirExists buildNumDir fs
  let filePath := Sprintf Quote "%s/%s".toList [buildNumDir, git.CommitSHA]
  match readFileString filePath fs with
  | (none, fs) => (.returned 1, writeFile 1 filePath fs)
  | (some bns, fs) =>
    match Atoi bns with
    | none =>
      (.fatal (Sprintf Quote "unable to parse build number %s (from %s) as int: %s".toList
        [bns, filePath, atoiError Quote bns]), fs)
    | some bn =>
      let bn := wrapInt (bn + 1)
      (.returned bn, writeFile bn filePath fs)

/-- `getBuildNumber`: how the call ends and the storage it leaves, for the
value `envBN` of `$BUILD_NUMBER`. -/
def getBuildNumber (Quote : Str → Str) (envBN : Str) (fs : Storage) (git : GitInfo) :
    Outcome Int × Storage :=
  match tryGetBuildNumberFromEnv Quote envBN with
  | .fatal msg => (.fatal msg, fs)
  | .returned (n, true) => (.returned n, fs)
  | .returned (_, false) => getBuildNumberFromHomeDirectory Quote fs git

/-- The counter file of a `(canonical name, commit SHA)` pair. -/
def counterFile (git : GitInfo) : Str :=
  "~/.ot/build_numbers/".toList ++ git.CanonicalName ++ "/".toList ++ git.CommitSHA

/-! ## core/buildpacks.go: ParseBuildpack -/

/-- `ParseBuildpack`.  `Join` is `filepath.Join`, `ReadString` is
`file.ReadString` (`none` is its `false` result, and the string that comes
with it is taken to be empty), `nilVersions` is the nil `*StackVersions` of
the zero `Buildpack`.  The closure `read` assigns to the captured variable
`err`, which is threaded through the five calls here.  The result is the pair
the function returns, `none` being the nil error. -/
def ParseBuildpack {C : Type} (Quote : Str → Str) (Join : Str → Str → Str)
    (ReadString : Str → Option Str) (nilVersions : C) (baseDir : Str) :
    Buildpack C × Option Str :=
  let read := fun (err : Option Str) (filename : Str) =>
    let path := Join baseDir filename
    match ReadString path with
    | none => (([] : Str), some (Sprintf Quote "unable to read file %s".toList [path]))
    | some s => (s, err)
  let r1 := read none "base.sh".toList
  let r2 := read r1.2 "command.sh".toList
  let r3 := read r2.2 "compile.sh".toList
  let r4 := read r3.2 "detect.sh".toList
  let r5 := read r4.2 "test.sh".toList
  ({ Name := [], Desc := [], StackVersions := nilVersions, DefaultStackVersion := [],
     Scripts := { Common := [], Base := r1.1, Command := r2.1, Compile := r3.1,
                  Detect := r4.1, Test := r5.1, ListBaseimage := [] } }, r5.2)

/-- The five file names `ParseBuildpack` reads, in the order of the calls. -/
def scriptFiles : List Str :=
  ["base.sh".toList, "command.sh".toList, "compile.sh".toList, "detect.sh".toList,
   "test.sh".toList]

/-! ## _packs/nodejs/app_target.go -/

/-- The `state interface{}` that reaches `SetState`: a `map[string]string`
(a nil map has no key), or a value of another dynamic type, of which only the
name of the type matters. -/
inductive Payload where
  | stringMap (m : Str → Option Str)
  | other (typeName : Str)

/-- `AppTarget`; `T` is the type of the embedded `*NodeJSTarget`. -/
structure AppTarget (T : Type) where
  NodeJSTarget : T
  artifactPath : Str

/-- `AppTarget.SetState`: how the call ends and the target it leaves.
`Fatalf` gives the message `cli.Fatalf` prints for a format and the payload as
its operand (`%T` and `%+v` are outside `Sprintf` above). -/
def AppTarget.SetState {T : Type} (Fatalf : Str → Payload → Str) (t : AppTarget T)
    (fromTarget : Str) (state : Payload) : Outcome Unit × AppTarget T :=
  if fromTarget ≠ "compile".toList then (.returned (), t)
  else
    match state with
    | .other _ =>
      (.fatal (Fatalf
        "app target got a %T from compile target, expected map[string]string".toList state), t)
    | .stringMap m =>
      match m "artifactPath".toList with
      | none =>
        (.fatal (Fatalf
          "app target got %+v from compile target; expected key \x27artifactPath\x27".toList
          state), t)
      | some artifactPath => (.returned (), { t with artifactPath := artifactPath })

/-! ## deploy/contract.go -/

/-- `HTTPCheck`. -/
structure HTTPCheck where
  GET : Str
  StatusCode : Int
  StatusCodeRange : List Int
  BodyContainsString : Str
  BodyDoesNotContainString : Str

/-- `ShellCheck`. -/
structure ShellCheck where
  Shell : Str
  ExitCode : Int

/-- `Action`. -/
structure Action where
  Shell : Str

/-- `Check`: `HTTPCheck` and `ShellCheck` are embedded, so their fields are
fields of the check. -/
structure Check extends HTTPCheck, ShellCheck where
  Name : Str
  Timeout : Int
  Setup : Action

/-- `HTTPCheck.Validate`; `none` is the nil error. -/
def HTTPCheck.Validate (Quote : Str → Str) (c : HTTPCheck) : Option Str :=
  if c.GET = [] then some (Sprintf Quote "GET not specified".toList [])
  else if c.StatusCode = 0 ∧ c.StatusCodeRange.length = 0 ∧ c.BodyContainsString = []
      ∧ c.BodyDoesNotContainString = [] then
    some (Sprintf Quote
      "you must supply at least one of: StatusCode, StatusCodeRange, BodyContainsString, BodyDoesNotContainString".toList
      [])
  else if c.StatusCode < 0 ∨ c.StatusCode > 999 then
    some (Sprintf Quote "StatusCode was %d; want 0 ≤ StatusCode ≤ 999".toList [])
  else if c.StatusCodeRange.length = 1 ∨ c.StatusCodeRange.length > 2 then
    some (Sprintf Quote
      "StatusCodeRange was %v; want it to be empty or contain exactly 2 elements".toList [])
  else none

/-- `ShellCheck.Validate`. -/
def ShellCheck.Validate (Quote : Str → Str) (c : ShellCheck) : Option Str :=
  if c.Shell = [] then some (Sprintf Quote "Shell command not specified".toList [])
  else none

/-- `Check.Validate`. -/
def Check.Validate (Quote : Str → Str) (c : Check) : Option Str :=
  let httpError := c.toHTTPCheck.Validate Quote
  let shellError := c.toShellCheck.Validate Quote
  match httpError, shellError with
  | some httpErr, some shellErr =>
    if c.GET ≠ [] then some (Sprintf Quote "%s".toList [httpErr])
    else if c.Shell ≠ [] then some (Sprintf Quote "%s".toList [shellErr])
    else some (Sprintf Quote "multiple errors: (%s) and (%s)".toList [httpErr, shellErr])
  | none, none =>
    some (Sprintf Quote
      "You have specified both Shell and GET, pick one or the other".toList [])
  | _, _ => none

/-- What `http.Get` gives: an error, or a response with its status code and
the outcome of reading its body to the end. -/
inductive HTTPResult where
  | failed (err : Str)
  | response (StatusCode : Int) (body : Except Str Str)

/-- How a call that may index a slice ends: a run-time panic, or a return. -/
inductive Run (α : Type) where
  | panic (msg : Str)
  | done (a : α)
  deriving DecidableEq

/-- `HTTPCheck.Execute` on the result of `http.Get(c.GET)`.  An index
expression `c.StatusCodeRange[i]` outside the slice panics.  `SprintfInt` is
`fmt.Sprintf` on `int` operands. -/
def HTTPCheck.Execute (Quote : Str → Str) (SprintfInt : Str → List Int → Str)
    (c : HTTPCheck) (got : HTTPResult) : Run (Option Str) :=
  match got with
  | .failed err => .done (some err)
  | .response status body =>
    if c.StatusCode ≠ 0 ∧ status ≠ c.StatusCode then
      .done (some (SprintfInt "got status code %d; want %d".toList [status, c.StatusCode]))
    else
      let rest : Run (Option Str) :=
        match body with
        | .error err => .done (some (Sprintf Quote "unable to read response body: %s".toList [err]))
        | .ok body =>
          if c.BodyContainsString ≠ [] ∧ ¬ c.BodyContainsString <:+: body then
            .done (some (Sprintf Quote
              "expected to find string %q in body but did not".toList [c.BodyContainsString]))
          else if c.BodyDoesNotContainString ≠ [] ∧ c.BodyDoesNotContainString <:+: body then
            .done (some (Sprintf Quote
              "found string %q in body, expected not to".toList [c.BodyDoesNotContainString]))
          else .done none
      let outOfRange : Run (Option Str) :=
        .panic "runtime error: index out of range".toList
      if c.StatusCodeRange.length ≠ 0 then
        match c.StatusCodeRange[0]? with
        | none => outOfRange
        | some lo =>
          if status < lo then
            match c.StatusCodeRange[1]? with
            | none => outOfRange
            | some hi => .done (some (SprintfInt
                "got status code %s; want something in the range %d..%d".toList [status, lo, hi]))
          else
            match c.StatusCodeRange[1]? with
            | none => outOfRange
            | some hi =>
              if status > hi then .done (some (SprintfInt
                "got status code %s; want something in the range %d..%d".toList [status, lo, hi]))
              else rest
      else rest

/-! ## util/shell/output.go -/

/-- `strings.Split(s, sep)` for a separator of one character: cut at every
occurrence; the result has one more element than `s` has separators. -/
def Split (s : Str) (sep : Char) : List Str :=
  match s with
  | [] => [[]]
  | c :: cs =>
    if c = sep then [] :: Split cs sep
    else match Split cs sep with
      | [] => [[c]]
      | p :: ps => (c :: p) :: ps

/-- The constant `wsChars`. -/
def wsChars : Str := " \t\r\n".toList

/-- `trimWS`. -/
def trimWS (s : Str) : Str := Trim s wsChars

/-- `whitespace.Split(line, -1)` for the regular expression `[ \t\r\n]+`: cut
at every maximal run of these characters.  `inRun` tells that the character
before was one of them, so that the run has been cut at already; the call
starts with `false`. -/
def whitespaceSplitFrom : Bool → Str → List Str
  | _, [] => [[]]
  | inRun, c :: cs =>
    if c ∈ wsChars then
      if inRun then whitespaceSplitFrom true cs else [] :: whitespaceSplitFrom true cs
    else match whitespaceSplitFrom false cs with
      | [] => [[c]]
      | p :: ps => (c :: p) :: ps

/-- `whitespace.Split(line, -1)`. -/
def whitespaceSplit (line : Str) : List Str := whitespaceSplitFrom false line

/-- `Output`, by the contents of its buffer. -/
structure Output where
  buffer : Str

/-- `Output.String`. -/
def Output.String (o : Output) : Str := trimWS o.buffer

/-- `Output.Lines`. -/
def Output.Lines (o : Output) : List Str :=
  (Split o.String '\n').map trimWS

/-- `Output.Table`.  `make([][]string, len(lines))` is a slice of `len(lines)`
nil rows, to which the loop appends; a nil row is the empty list. -/
def Output.Table (o : Output) : List (List Str) :=
  let lines := o.Lines
  let rows : List (List Str) := List.replicate lines.length []
  lines.foldl (fun rows line => rows ++ [whitespaceSplit line]) rows

/-! ## util/shell/command.go -/

/-- `Command`, without the embedded `*Sh`, of which `Result` uses the two tee
writers only. -/
structure Command where
  Name : Str
  Args : List Str

/-- The error `c.Wait()` returns: its text and, when it is an
`*exec.ExitError` that carries a `syscall.WaitStatus`, the exit status. -/
structure WaitError where
  text : Str
  exitStatus : Option Int

/-- What executing a command gives: `c.Start()` fails, or the process runs and
`c.Wait()` returns an error or nil, with the three captured streams. -/
inductive ExecOutcome where
  | startFailed (err : Str)
  | finished (waitErr : Option WaitError) (stdout stderr combined : Str)

/-- `Result`. -/
structure Result where
  Command : Command
  Stdout : Output
  Stderr : Output
  Combined : Output
  Err : Option Str
  ExitCode : Int

/-- `Command.String`. -/
def Command.String (Quote : Str → Str) (c : Command) : Str :=
  let args := List.intercalate " ".toList c.Args
  Sprintf Quote "%s %s".toList [c.Name, args]

/-- The text of the `Error` that `newError(err, r)` builds (`Error.Error`). -/
def newError (Quote : Str → Str) (err : Str) (r : Result) : Str :=
  Sprintf Quote "shell> %s\n%s\ncommand failed: %s".toList
    [r.Command.String Quote, r.Combined.String, err]

/-- `Command.Result` on the outcome of the execution: the pair it returns, an
error being given by its text and `none` being nil. -/
def Command.Result (s : Command) (o : ExecOutcome) : Option Sous.Result × Option Str :=
  match o with
  | .startFailed err => (none, some err)
  | .finished waitErr stdout stderr combined =>
    let code : Int :=
      match waitErr with
      | none => 0
      | some e =>
        match e.exitStatus with
        | some status => status
        | none => -1
    (some { Command := s, Stdout := ⟨stdout⟩, Stderr := ⟨stderr⟩, Combined := ⟨combined⟩,
            Err := waitErr.map WaitError.text, ExitCode := code }, none)

/-- `Command.ExitCode`. -/
def Command.ExitCode (c : Command) (o : ExecOutcome) : Int × Option Str :=
  match c.Result o with
  | (_, some err) => (-1, some err)
  | (some r, none) => (r.ExitCode, none)
  | (none, none) => (0, none)

/-- `Command.SucceedResult`. -/
def Command.SucceedResult (Quote : Str → Str) (c : Command) (o : ExecOutcome) :
    Option Sous.Result × Option Str :=
  match c.Result o with
  | (r, some err) => (r, some err)
  | (some r, none) =>
    match r.Err with
    | some e => (some r, some (newError Quote e r))
    | none => (some r, none)
  | (none, none) => (none, none)

/-- `Command.Succeed`. -/
def Command.Succeed (Quote : Str → Str) (c : Command) (o : ExecOutcome) : Option Str :=
  (c.SucceedResult Quote o).2

/-- `Command.FailResult`. -/
def Command.FailResult (Quote : Str → Str) (c : Command) (o : ExecOutcome) :
    Option Sous.Result × Option Str :=
  match c.Result o with
  | (r, some err) => (r, some err)
  | (some r, none) =>
    match r.Err with
    | none => (some r, some (Sprintf Quote "command %s succeeded, expected failure".toList []))
    | some _ => (some r, none)
  | (none, none) => (none, none)

/-- `Command.Fail`. -/
def Command.Fail (Quote : Str → Str) (c : Command) (o : ExecOutcome) : Option Str :=
  (c.FailResult Quote o).2

/-! ## Concrete buildpacks and a concrete environment for evaluation -/

/-- A stand-in for `strconv.Quote`, right on text without special characters. -/
def sampleQuote (s : Str) : Str := ['"'] ++ s ++ ['"']

/-- A buildpack over a catalog that is the list of its version identifiers. -/
def samplePack (name detect : String) : Buildpack (List Str) :=
  { Name := name.toList, Desc := [], StackVersions := ["6.9.1".toList],
    DefaultStackVersion := "6.9.1".toList,
    Scripts := { Common := [], Base := [], Command := [], Compile := [],
                 Detect := detect.toList, Test := [], ListBaseimage := [] } }

/-- A subprocess that behaves as the last line of the script says. -/
def sampleExec (_inDir _name contents : Str) : ScriptOutcome :=
  if "echo nodejs default\n".toList.isSuffixOf contents then
    .exited none "nodejs default\n".toList [] "nodejs default\n".toList
  else if "echo ruby default\n".toList.isSuffixOf contents then
    .exited none "ruby default\n".toList [] "ruby default\n".toList
  else if "echo go default\n".toList.isSuffixOf contents then
    .exited none "go default\n".toList [] "go default\n".toList
  else if "echo nodejs\n".toList.isSuffixOf contents then
    .exited none "nodejs\n".toList [] "nodejs\n".toList
  else if "printf \x27nodejs\\tdefault\x27\n".toList.isSuffixOf contents then
    .exited none "nodejs\tdefault".toList [] "nodejs\tdefault".toList
  else if "echo nodejs zzz\n".toList.isSuffixOf contents then
    .exited none "nodejs zzz\n".toList [] "nodejs zzz\n".toList
  else if "exit 1\n".toList.isSuffixOf contents then
    .exited (some "exit status 1".toList) [] [] []
  else .startFailed "exec format error".toList

/-- An environment whose range parser knows the exact version `6.9.1` only and
whose catalog lookup is membership. -/
def sampleEnv : Env (List Str) Str Str :=
  { Quote := sampleQuote,
    NewRange := fun s =>
      if s = "6.9.1".toList then .ok s else .error "invalid range".toList,
    GetBestStackVersion := fun c r =>
      if r ∈ c then .ok r else .error "no matching version".toList,
    exec := sampleExec,
    Format := fun format _ => format }

/-- A repository and commit. -/
def sampleGit : GitInfo :=
  { CanonicalName := "github.com/opentable/sous".toList, CommitSHA := "abc123".toList }

/-- A storage with nothing in it but, when `counter` is given, the counter
file of `sampleGit` with that text. -/
def sampleStorage (counter : Option String) : Storage :=
  { dirs := fun _ => false,
    files := fun p => if p = counterFile sampleGit then counter.map String.toList else none,
    ops := [] }

/-- A stand-in for the message of `cli.Fatalf`: the format itself. -/
def sampleFatalf (format : Str) (_state : Payload) : Str := format

/-- An app target that already holds an artifact path. -/
def sampleTarget : AppTarget Unit :=
  { NodeJSTarget := (), artifactPath := "old.tar.gz".toList }

/-- The map `{artifactPath: "/tmp/x.tar.gz"}`. -/
def sampleState (key : Str) : Option Str :=
  if key = "artifactPath".toList then some "/tmp/x.tar.gz".toList else none

/-- An environment in which every script writes to both streams and exits
with status 2. -/
def sampleFailEnv : Env (List Str) Str Str :=
  { sampleEnv with
    exec := fun _ _ _ =>
      .exited (some "exit status 2".toList) "out\n".toList "err\n".toList
        "out\nerr\n".toList }

/-- An environment in which every script prints `nodejs`, two spaces and
`default`, and exits with status 0. -/
def sampleSpacesEnv : Env (List Str) Str Str :=
  { sampleEnv with
    exec := fun _ _ _ =>
      .exited none "nodejs  default\n".toList [] "nodejs  default\n".toList }

/-- A stand-in for `filepath.Join` on clean path elements. -/
def sampleJoin (dir file : Str) : Str := dir ++ "/".toList ++ file

/-- A stand-in for `file.ReadString`: every file can be read but the listed
ones. -/
def sampleRead (missing : List String) (path : Str) : Option Str :=
  if path ∈ missing.map String.toList then none else some "#!/bin/sh\n".toList

/-- A check with a URL, no assertion about the response, and a shell
command. -/
def sampleBothCheck : Check :=
  { GET := "http://localhost/health".toList, StatusCode := 0, StatusCodeRange := [],
    BodyContainsString := [], BodyDoesNotContainString := [],
    Shell := "true".toList, ExitCode := 0,
    Name := "health".toList, Timeout := 0, Setup := { Shell := [] } }

/-- A valid HTTP check with a range of status codes. -/
def sampleRangeCheck : HTTPCheck :=
  { GET := "http://localhost/health".toList, StatusCode := 0, StatusCodeRange := [200, 299],
    BodyContainsString := [], BodyDoesNotContainString := [] }

/-- A stand-in for `fmt.Sprintf` on `int` operands: the format itself. -/
def sampleSprintfInt (format : Str) (_a : List Int) : Str := format

/-! ## Lemmas on the library functions -/

section Lemmas

theorem Sprintf_cons_of_ne (Q : Str → Str) (c : Char) (f : Str) (a : List Str)
    (h : c ≠ '%') : Sprintf Q (c :: f) a = c :: Sprintf Q f a := by
  rw [Sprintf.eq_def]; simp [h]

theorem Sprintf_misconfigured (Q : Str → Str) (f : Str) (a : List Str) :
    Sprintf Q ("misconfigured; ".toList ++ f) a
      = "misconfigured; ".toList ++ Sprintf Q f a := by
  simp [Sprintf_cons_of_ne]

theorem Sprintf_buildpack (Q : Str → Str) (n m : Str) :
    Sprintf Q "buildpack %s: %s".toList [n, m]
      = "buildpack ".toList ++ n ++ ": ".toList ++ m := by
  simp [Sprintf, printOperand, extraOperands]

theorem Sprintf_multiple (Q : Str → Str) (a b : Str) :
    Sprintf Q "multiple project types detected: %s and %s".toList [a, b]
      = "multiple project types detected: ".toList ++ a ++ " and ".toList ++ b := by
  simp [Sprintf, printOperand, extraOperands]

theorem Sprintf_unable (Q : Str → Str) (t e : Str) :
    Sprintf Q "unable to parse %q as semver range: %s".toList [t, e]
      = "unable to parse ".toList ++ Q t ++ " as semver range: ".toList ++ e := by
  simp [Sprintf, printOperand, extraOperands]

theorem Sprintf_of_plainFormat {C R V : Type} (E : Env C R V) (f : Str) (a : List Str)
    (h : plainFormat f = true) : E.Sprintf f a = Sprintf E.Quote f a := by
  simp [Env.Sprintf, h]

theorem splitSpace_of_no_space (s : Str) (h : ' ' ∉ s) : splitSpace s = [s] := by
  induction s with
  | nil => rfl
  | cons c cs ih =>
    have hc : c ≠ ' ' := fun e => h (by simp [e])
    have hcs : ' ' ∉ cs := fun m => h (List.mem_cons_of_mem _ m)
    simp [splitSpace, hc, ih hcs]

theorem splitSpace_two (a b : Str) (ha : ' ' ∉ a) (hb : ' ' ∉ b) :
    splitSpace (a ++ ' ' :: b) = [a, b] := by
  induction a with
  | nil => simp [splitSpace, splitSpace_of_no_space b hb]
  | cons c cs ih =>
    have hc : c ≠ ' ' := fun e => ha (by simp [e])
    have hcs : ' ' ∉ cs := fun m => ha (List.mem_cons_of_mem _ m)
    simp [splitSpace, hc, ih hcs]

end Lemmas

section CoreTheorems

variable {C R V : Type}

/-- The error `Buildpack.Detect` returns from its shape check. -/
theorem Detect_of_shape_mismatch (E : Env C R V) (bp : Buildpack C) (dirPath detected : Str)
    (hrun : bp.RunScript E "detect.sh".toList bp.Scripts.Detect dirPath = .ok detected)
    (hshape : ¬ ∃ tok, splitSpace detected = [bp.Name, tok]) :
    bp.Detect E dirPath
      = .error (.buildpack (bp.ScriptErr E shapeFormat detected [bp.Name])) := by
  unfold Buildpack.Detect
  simp only [hrun]
  split
  · rename_i name tok hsplit
    by_cases hn : name = bp.Name
    · exact absurd ⟨tok, by rw [hsplit, hn]⟩ hshape
    · simp [hn]
  · rfl

/-- C1. Whenever the trimmed output of detect.sh is not made of exactly two
space-separated parts of which the first is the name of the buildpack,
`Buildpack.Detect` returns an error, hence no `RunnableBuildpack`, and the
error is a `BuildpackError` for this buildpack. -/
theorem Detect_shape_violation_is_BuildpackError (E : Env C R V) (bp : Buildpack C)
    (dirPath detected : Str)
    (hrun : bp.RunScript E "detect.sh".toList bp.Scripts.Detect dirPath = .ok detected)
    (hshape : ¬ ∃ tok, splitSpace detected = [bp.Name, tok]) :
    ∃ e : BuildpackError C,
      bp.Detect E dirPath = .error (.buildpack e) ∧ e.Buildpack = bp :=
  ⟨_, Detect_of_shape_mismatch E bp dirPath detected hrun hshape, rfl⟩

/-- Witness of C1: the one-part output `nodejs` of a buildpack named nodejs. -/
theorem Detect_shape_violation_is_BuildpackError_witness :
    (samplePack "nodejs" "echo nodejs").RunScript sampleEnv "detect.sh".toList
        (samplePack "nodejs" "echo nodejs").Scripts.Detect [] = .ok "nodejs".toList
    ∧ ∃ e : BuildpackError (List Str),
        (samplePack "nodejs" "echo nodejs").Detect sampleEnv [] = .error (.buildpack e)
        ∧ e.Buildpack = samplePack "nodejs" "echo nodejs" :=
  ⟨by rfl, Detect_shape_violation_is_BuildpackError sampleEnv
    (samplePack "nodejs" "echo nodejs") [] "nodejs".toList (by rfl)
    (by rintro ⟨tok, h⟩; simp [splitSpace, samplePack] at h)⟩

/-- The name of the buildpack occurs in the text of each of its errors. -/
theorem Name_infix_Error (E : Env C R V) (e : BuildpackError C) :
    e.Buildpack.Name <:+: e.Error E := by
  unfold BuildpackError.Error
  simp only [Sprintf_buildpack]
  exact ⟨"buildpack ".toList, ": ".toList ++ (if e.Script ≠ [] then
    Sprintf E.Quote "%s; %s".toList [e.Script, e.Message] else e.Message), by simp⟩

/-- C4. `Buildpack.Detect` has two kinds of failure once the shape check has
passed.  With the token `default` it parses the buildpack's own
`DefaultStackVersion` (and succeeds with that range when the catalog has a
version for it); a default range that does not parse, and a parsed range that
no catalog version satisfies, give a misconfiguration error: empty `Script`,
`Message` starting with `misconfigured; `, the buildpack named in `Error()`.
A token other than `default` that does not parse gives a script error:
`Script` is `detect.sh` and `Message` does not start with `misconfigured; `. -/
theorem Detect_error_kinds (E : Env C R V) (bp : Buildpack C) (dirPath detected tok : Str)
    (hrun : bp.RunScript E "detect.sh".toList bp.Scripts.Detect dirPath = .ok detected)
    (hsplit : splitSpace detected = [bp.Name, tok]) :
    (tok = "default".toList → ∀ err, E.NewRange bp.DefaultStackVersion = .error err →
      ∃ e : BuildpackError C, bp.Detect E dirPath = .error (.buildpack e) ∧ e.Script = []
        ∧ "misconfigured; ".toList <+: e.Message ∧ bp.Name <:+: e.Error E)
    ∧ (∀ r err, (if tok = "default".toList then E.NewRange bp.DefaultStackVersion
            else E.NewRange tok) = .ok r →
        E.GetBestStackVersion bp.StackVersions r = .error err →
      ∃ e : BuildpackError C, bp.Detect E dirPath = .error (.buildpack e) ∧ e.Script = []
        ∧ "misconfigured; ".toList <+: e.Message ∧ bp.Name <:+: e.Error E)
    ∧ (tok ≠ "default".toList → ∀ err, E.NewRange tok = .error err →
      ∃ e : BuildpackError C, bp.Detect E dirPath = .error (.buildpack e)
        ∧ e.Script = "detect.sh".toList
        ∧ ¬ "misconfigured; ".toList <+: e.Message ∧ bp.Name <:+: e.Error E)
    ∧ (tok = "default".toList → ∀ r v, E.NewRange bp.DefaultStackVersion = .ok r →
        E.GetBestStackVersion bp.StackVersions r = .ok v →
      bp.Detect E dirPath = .ok { toBuildpack := bp, DetectedStackVersionRange := tok,
                                  ResolvedStackVersionRange := r, StackVersion := v }) := by
  refine ⟨?_, ?_, ?_, ?_⟩
  · intro htok err herr
    refine ⟨bp.ConfigErr E "unable to parse default stack version %q as semver range: %s".toList
      [bp.DefaultStackVersion, err], ?_, rfl, ?_, Name_infix_Error E (bp.ConfigErr E _ _)⟩
    · unfold Buildpack.Detect
      simp only [hrun, hsplit, htok, herr, ne_eq, not_true_eq_false, if_true, if_false]
    · simp only [Buildpack.ConfigErr, Buildpack.ScriptErr]
      rw [Sprintf_of_plainFormat E ("misconfigured; ".toList
        ++ "unable to parse default stack version %q as semver range: %s".toList) _
        (by decide), Sprintf_misconfigured]
      exact List.prefix_append _ _
  · intro r err hr hbest
    refine ⟨bp.ConfigErr E "unable to determine stack version: %s".toList [err],
      ?_, rfl, ?_, Name_infix_Error E (bp.ConfigErr E _ _)⟩
    · unfold Buildpack.Detect
      simp only [hrun, hsplit]
      by_cases htok : tok = "default".toList
      · simp only [htok, if_true] at hr
        simp only [htok, hr, hbest, ne_eq, not_true_eq_false, if_true, if_false]
      · simp only [htok, if_false] at hr
        simp only [htok, hr, hbest, ne_eq, not_true_eq_false, if_true, if_false]
    · simp only [Buildpack.ConfigErr, Buildpack.ScriptErr]
      rw [Sprintf_of_plainFormat E ("misconfigured; ".toList
        ++ "unable to determine stack version: %s".toList) _ (by decide),
        Sprintf_misconfigured]
      exact List.prefix_append _ _
  · intro htok err herr
    refine ⟨bp.ScriptErr E "detect.sh".toList "unable to parse %q as semver range: %s".toList
      [tok, err], ?_, rfl, ?_, Name_infix_Error E (bp.ScriptErr E _ _ _)⟩
    · unfold Buildpack.Detect
      simp only [hrun, hsplit, htok, herr, ne_eq, not_true_eq_false, if_true, if_false]
    · simp only [Buildpack.ScriptErr]
      rw [Sprintf_of_plainFormat E "unable to parse %q as semver range: %s".toList _
        (by decide), Sprintf_unable]
      intro h
      simp at h
  · intro htok r v hr hbest
    unfold Buildpack.Detect
    simp only [hrun, hsplit, htok, hr, hbest, ne_eq, not_true_eq_false, if_true, if_false]

/-- Witness of C4: the script of the nodejs buildpack prints `nodejs zzz`, and
`zzz` is not a range. -/
theorem Detect_error_kinds_witness :
    ∃ e : BuildpackError (List Str),
      (samplePack "nodejs" "echo nodejs zzz").Detect sampleEnv [] = .error (.buildpack e)
        ∧ e.Script = "detect.sh".toList
        ∧ ¬ "misconfigured; ".toList <+: e.Message
        ∧ (samplePack "nodejs" "echo nodejs zzz").Name <:+: e.Error sampleEnv :=
  (Detect_error_kinds sampleEnv (samplePack "nodejs" "echo nodejs zzz") []
    "nodejs zzz".toList "zzz".toList (by rfl) (by decide)).2.2.1 (by decide)
    "invalid range".toList (by rfl)

/-- One space between the name and a valid version token, neither of them
containing a space: `Buildpack.Detect` does not return the shape error, and
every error it can still return is a misconfiguration error. -/
theorem Detect_single_space (E : Env C R V) (bp : Buildpack C) (dirPath tok : Str)
    (hrun : bp.RunScript E "detect.sh".toList bp.Scripts.Detect dirPath
      = .ok (bp.Name ++ ' ' :: tok))
    (hname : ' ' ∉ bp.Name) (htok : ' ' ∉ tok)
    (hvalid : tok = "default".toList ∨ ∃ r, E.NewRange tok = .ok r) :
    bp.Detect E dirPath
        ≠ .error (.buildpack (bp.ScriptErr E shapeFormat (bp.Name ++ ' ' :: tok) [bp.Name]))
    ∧ ∀ e, bp.Detect E dirPath = .error e →
        ∃ b : BuildpackError C, e = .buildpack b ∧ b.Script = [] := by
  have hsplit := splitSpace_two bp.Name tok hname htok
  have key : ∀ e, bp.Detect E dirPath = .error e →
      ∃ b : BuildpackError C, e = .buildpack b ∧ b.Script = [] := by
    intro e he
    unfold Buildpack.Detect at he
    simp only [hrun, hsplit, ne_eq, not_true_eq_false, if_false] at he
    by_cases hd : tok = "default".toList
    · simp only [hd, if_true] at he
      cases hnr : E.NewRange bp.DefaultStackVersion with
      | error err =>
        simp only [hnr] at he
        cases he
        exact ⟨_, rfl, rfl⟩
      | ok r =>
        simp only [hnr] at he
        cases hb : E.GetBestStackVersion bp.StackVersions r with
        | error err =>
          simp only [hb] at he
          cases he
          exact ⟨_, rfl, rfl⟩
        | ok v => simp only [hb] at he; cases he
    · obtain ⟨r, hr⟩ := hvalid.resolve_left hd
      simp only [hd, if_false, hr] at he
      cases hb : E.GetBestStackVersion bp.StackVersions r with
      | error err =>
        simp only [hb] at he
        cases he
        exact ⟨_, rfl, rfl⟩
      | ok v => simp only [hb] at he; cases he
  refine ⟨?_, key⟩
  intro h
  obtain ⟨b, hb, hs⟩ := key _ h
  cases hb
  have hne : shapeFormat ≠ [] := by decide
  exact hne hs

theorem splitSpace_ne_nil (s : Str) : splitSpace s ≠ [] := by
  cases s with
  | nil => simp [splitSpace]
  | cons c cs =>
    unfold splitSpace
    split_ifs
    · simp
    · split <;> simp

/-- A prefix without space stays in the first part. -/
theorem splitSpace_prefix (a s : Str) (ha : ' ' ∉ a) :
    ∃ p ps, splitSpace s = p :: ps ∧ splitSpace (a ++ s) = (a ++ p) :: ps := by
  induction a with
  | nil =>
    obtain ⟨p, ps, h⟩ := List.exists_cons_of_ne_nil (splitSpace_ne_nil s)
    exact ⟨p, ps, h, by simpa using h⟩
  | cons c cs ih =>
    have hc : c ≠ ' ' := fun e => ha (by simp [e])
    have hcs : ' ' ∉ cs := fun m => ha (List.mem_cons_of_mem _ m)
    obtain ⟨p, ps, h1, h2⟩ := ih hcs
    exact ⟨p, ps, h1, by simp [splitSpace, hc, h2]⟩

/-- Two or more spaces after a name without space give at least three parts. -/
theorem splitSpace_spaces (a t : Str) (n : Nat) (ha : ' ' ∉ a) :
    ¬ ∃ tok, splitSpace (a ++ (List.replicate (n + 2) ' ' ++ t)) = [a, tok] := by
  rintro ⟨tok, h⟩
  obtain ⟨p, ps, h1, h2⟩ := splitSpace_prefix a (List.replicate (n + 2) ' ' ++ t) ha
  obtain ⟨q, qs, hq⟩ := List.exists_cons_of_ne_nil (splitSpace_ne_nil (List.replicate n ' ' ++ t))
  have h3 : splitSpace (List.replicate (n + 2) ' ' ++ t) = [] :: [] :: q :: qs := by
    simp [List.replicate_succ, splitSpace, hq]
  rw [h3] at h1
  rw [h2] at h
  cases h1
  simp at h

/-- A tab right after a name without space makes the first part longer than
the name. -/
theorem splitSpace_tab (a t : Str) (ha : ' ' ∉ a) :
    ¬ ∃ tok, splitSpace (a ++ ('\t' :: t)) = [a, tok] := by
  rintro ⟨tok, h⟩
  obtain ⟨p, ps, h1, h2⟩ := splitSpace_prefix a ('\t' :: t) ha
  obtain ⟨q, qs, hq⟩ := List.exists_cons_of_ne_nil (splitSpace_ne_nil t)
  have h3 : splitSpace ('\t' :: t) = ('\t' :: q) :: qs := by
    simp [splitSpace, hq]
  rw [h3] at h1
  rw [h2] at h
  cases h1
  have hlen := congrArg (fun l => (l.head?.map List.length)) h
  simp at hlen

/-- C2, as the code has it.  For a buildpack whose name has no space:
when the trimmed output of detect.sh is the name, exactly one space, and a
valid version token (`default` or a range that parses) without space,
`Buildpack.Detect` does not return the shape error, and every error it can
still return is a misconfiguration error, with an empty `Script`; when the
name is followed by two or more spaces, or by a tab, whatever comes next,
`Buildpack.Detect` returns the shape error. -/
theorem Detect_separator_contract (E : Env C R V) (bp : Buildpack C) (dirPath tok : Str)
    (hname : ' ' ∉ bp.Name) :
    (bp.RunScript E "detect.sh".toList bp.Scripts.Detect dirPath
        = .ok (bp.Name ++ ' ' :: tok) →
      ' ' ∉ tok → (tok = "default".toList ∨ ∃ r, E.NewRange tok = .ok r) →
      bp.Detect E dirPath
          ≠ .error (.buildpack (bp.ScriptErr E shapeFormat (bp.Name ++ ' ' :: tok) [bp.Name]))
      ∧ ∀ e, bp.Detect E dirPath = .error e →
          ∃ b : BuildpackError C, e = .buildpack b ∧ b.Script = [])
    ∧ (∀ n : Nat, bp.RunScript E "detect.sh".toList bp.Scripts.Detect dirPath
        = .ok (bp.Name ++ (List.replicate (n + 2) ' ' ++ tok)) →
      bp.Detect E dirPath = .error (.buildpack (bp.ScriptErr E shapeFormat
        (bp.Name ++ (List.replicate (n + 2) ' ' ++ tok)) [bp.Name])))
    ∧ (∀ sep : Str, bp.RunScript E "detect.sh".toList bp.Scripts.Detect dirPath
        = .ok (bp.Name ++ ('\t' :: (sep ++ tok))) →
      bp.Detect E dirPath = .error (.buildpack (bp.ScriptErr E shapeFormat
        (bp.Name ++ ('\t' :: (sep ++ tok))) [bp.Name]))) := by
  refine ⟨?_, ?_, ?_⟩
  · intro hrun htok hvalid
    exact Detect_single_space E bp dirPath tok hrun hname htok hvalid
  · intro n hrun
    exact Detect_of_shape_mismatch E bp dirPath _ hrun (splitSpace_spaces bp.Name tok n hname)
  · intro sep hrun
    exact Detect_of_shape_mismatch E bp dirPath _ hrun (splitSpace_tab bp.Name _ hname)

/-- Witness of C2 as amended: the outputs `nodejs default` with one space,
with two spaces, and with a tab. -/
theorem Detect_separator_contract_witness :
    (samplePack "nodejs" "echo nodejs default").Detect sampleEnv []
        ≠ .error (.buildpack ((samplePack "nodejs" "echo nodejs default").ScriptErr sampleEnv
            shapeFormat ((samplePack "nodejs" "echo nodejs default").Name
              ++ ' ' :: "default".toList)
            [(samplePack "nodejs" "echo nodejs default").Name]))
    ∧ (samplePack "nodejs" "echo nodejs default").Detect sampleSpacesEnv []
        = .error (.buildpack ((samplePack "nodejs" "echo nodejs default").ScriptErr
            sampleSpacesEnv shapeFormat "nodejs  default".toList ["nodejs".toList]))
    ∧ (samplePack "nodejs" "printf \x27nodejs\\tdefault\x27").Detect sampleEnv []
        = .error (.buildpack ((samplePack "nodejs" "printf \x27nodejs\\tdefault\x27").ScriptErr
            sampleEnv shapeFormat "nodejs\tdefault".toList ["nodejs".toList])) :=
  ⟨((Detect_separator_contract sampleEnv (samplePack "nodejs" "echo nodejs default") []
      "default".toList (by decide)).1 (by rfl) (by decide) (Or.inl rfl)).1,
   (Detect_separator_contract sampleSpacesEnv (samplePack "nodejs" "echo nodejs default") []
      "default".toList (by decide)).2.1 0 (by rfl),
   (Detect_separator_contract sampleEnv
      (samplePack "nodejs" "printf \x27nodejs\\tdefault\x27") []
      "default".toList (by decide)).2.2 [] (by rfl)⟩

/-- C2 fails as stated: when the script prints the name and the token
`default` with a tab between them, `Buildpack.Detect` returns the shape
error. -/
theorem Detect_rejects_tab_separator :
    (samplePack "nodejs" "printf \x27nodejs\\tdefault\x27").RunScript sampleEnv
        "detect.sh".toList
        (samplePack "nodejs" "printf \x27nodejs\\tdefault\x27").Scripts.Detect []
      = .ok ("nodejs".toList ++ ['\t'] ++ "default".toList)
    ∧ (samplePack "nodejs" "printf \x27nodejs\\tdefault\x27").Detect sampleEnv []
      = .error (.buildpack
          ((samplePack "nodejs" "printf \x27nodejs\\tdefault\x27").ScriptErr sampleEnv
            shapeFormat ("nodejs".toList ++ ['\t'] ++ "default".toList) ["nodejs".toList])) :=
  ⟨by rfl, by rfl⟩

/-- C3, the code at the one-part output `nodejs`: the `Script` field of the
error is the format text of the shape message and not `detect.sh`, and the
`Message` is the output followed by an `EXTRA` diagnostic, without the
expected form. -/
theorem Detect_shape_error_fields :
    (samplePack "nodejs" "echo nodejs").Detect sampleEnv []
      = .error (.buildpack
          { Buildpack := samplePack "nodejs" "echo nodejs",
            Script := shapeFormat,
            Message := "nodejs%!(EXTRA string=nodejs)".toList })
    ∧ shapeFormat ≠ "detect.sh".toList
    ∧ ¬ "<stackversion>".toList <:+: "nodejs%!(EXTRA string=nodejs)".toList :=
  ⟨by rfl, by decide, by decide⟩

/-! ### The detection loop -/

/-- While at least one buildpack is left, the loop does not read the old
contents of its variable. -/
theorem detectLoop_cons_irrel (E : Env C R V) (W : Str) (q : Buildpack C)
    (rest : List (Buildpack C)) (pack : Bool) (p p2 : Option (DetectedPack C R V)) :
    detectLoop E W (q :: rest) pack p = detectLoop E W (q :: rest) pack p2 := by
  simp only [detectLoop]

/-- Buildpacks whose `Detect` fails with an error that is not a
`BuildpackError` are passed over, whatever the state of the loop. -/
theorem detectLoop_skip (E : Env C R V) (W : Str) (pre : List (Buildpack C))
    (q : Buildpack C) (rest : List (Buildpack C)) (pack : Bool)
    (p p2 : Option (DetectedPack C R V))
    (hpre : ∀ b ∈ pre, ∃ msg, b.Detect E W = .error (.other msg)) :
    detectLoop E W (pre ++ q :: rest) pack p = detectLoop E W (q :: rest) pack p2 := by
  induction pre generalizing p with
  | nil => exact detectLoop_cons_irrel E W q rest pack p p2
  | cons b bs ih =>
    obtain ⟨msg, hb⟩ := hpre b (List.mem_cons_self _ _)
    have hbs : ∀ c ∈ bs, ∃ msg, c.Detect E W = .error (.other msg) :=
      fun c hc => hpre c (List.mem_cons_of_mem _ hc)
    simp only [List.cons_append, detectLoop, hb]
    exact ih _ hbs

/-- With `pack` still nil, a list of such buildpacks ends the loop with nil. -/
theorem detectLoop_none (E : Env C R V) (W : Str) (packs : List (Buildpack C))
    (p : Option (DetectedPack C R V))
    (h : ∀ b ∈ packs, ∃ msg, b.Detect E W = .error (.other msg)) :
    detectLoop E W packs false p = .returned none := by
  induction packs generalizing p with
  | nil => simp [detectLoop]
  | cons b bs ih =>
    obtain ⟨msg, hb⟩ := h b (List.mem_cons_self _ _)
    have hbs : ∀ c ∈ bs, ∃ msg, c.Detect E W = .error (.other msg) :=
      fun c hc => h c (List.mem_cons_of_mem _ hc)
    simp only [detectLoop, hb]
    exact ih _ hbs

/-- C8. When the `Detect` of every buildpack of the list fails with an error
that is not a `BuildpackError` (the script did not start or exited non-zero),
so that none matches, `DetectProjectType` returns nil; the empty list is the
case where the hypothesis holds vacuously. -/
theorem DetectProjectType_undetected (E : Env C R V) (W : Str) (packs : List (Buildpack C))
    (h : ∀ b ∈ packs, ∃ msg, b.Detect E W = .error (.other msg)) :
    DetectProjectType E W packs = .returned none :=
  detectLoop_none E W packs none h

/-- Witness of C8: two buildpacks whose scripts exit with status 1. -/
theorem DetectProjectType_undetected_witness :
    DetectProjectType sampleEnv [] [samplePack "nodejs" "exit 1", samplePack "ruby" "exit 1"]
      = .returned none :=
  DetectProjectType_undetected sampleEnv []
    [samplePack "nodejs" "exit 1", samplePack "ruby" "exit 1"]
    (by
      intro b hb
      simp only [List.mem_cons, List.mem_singleton, List.not_mem_nil, or_false] at hb
      rcases hb with rfl | rfl
      · exact ⟨_, by rfl⟩
      · exact ⟨_, by rfl⟩)

/-- A loop that has ended fatally on a list ends the same way on every
extension of the list. -/
theorem detectLoop_fatal_append (E : Env C R V) (W : Str) (pre rest : List (Buildpack C))
    (pack : Bool) (p : Option (DetectedPack C R V)) (msg : Str)
    (h : detectLoop E W pre pack p = .fatal msg) :
    detectLoop E W (pre ++ rest) pack p = .fatal msg := by
  induction pre generalizing pack p with
  | nil => simp [detectLoop] at h
  | cons b bs ih =>
    simp only [List.cons_append, detectLoop] at h ⊢
    cases hd : b.Detect E W with
    | error err =>
      cases err with
      | buildpack be => simpa only [hd] using h
      | other m =>
        simp only [hd] at h ⊢
        exact ih _ _ h
    | ok r =>
      simp only [hd] at h ⊢
      cases pack with
      | true => simpa using h
      | false =>
        simp only [Bool.false_eq_true, if_false] at h ⊢
        exact ih _ _ h

/-- A loop that returns on a list reaches the buildpack put after the list,
and a `BuildpackError` of that buildpack ends the process. -/
theorem detectLoop_reach (E : Env C R V) (W : Str) (pre : List (Buildpack C))
    (bp : Buildpack C) (rest : List (Buildpack C)) (pack : Bool)
    (p x : Option (DetectedPack C R V)) (e : BuildpackError C)
    (h : detectLoop E W pre pack p = .returned x)
    (he : bp.Detect E W = .error (.buildpack e)) :
    detectLoop E W (pre ++ bp :: rest) pack p = .fatal (e.Error E) := by
  induction pre generalizing pack p with
  | nil => simp only [List.nil_append, detectLoop, he]
  | cons b bs ih =>
    simp only [List.cons_append, detectLoop] at h ⊢
    cases hd : b.Detect E W with
    | error err =>
      cases err with
      | buildpack be => simp only [hd] at h; cases h
      | other m =>
        simp only [hd] at h ⊢
        exact ih _ _ h
    | ok r =>
      simp only [hd] at h ⊢
      cases pack with
      | true => simp at h
      | false =>
        simp only [Bool.false_eq_true, if_false] at h ⊢
        exact ih _ _ h

/-- The verdict of the loop does not depend on the contents of its variable,
as long as the variable is set whenever `pack` points to it. -/
theorem verdict_detectLoop_irrel (E : Env C R V) (W : Str) (rest : List (Buildpack C))
    (pack : Bool) (p p2 : Option (DetectedPack C R V))
    (hp : pack = true → p.isSome = true) (hp2 : pack = true → p2.isSome = true) :
    verdict (detectLoop E W rest pack p) = verdict (detectLoop E W rest pack p2) := by
  cases rest with
  | nil =>
    cases pack with
    | true => simp [detectLoop, verdict, hp rfl, hp2 rfl]
    | false => simp [detectLoop, verdict]
  | cons q qs => rw [detectLoop_cons_irrel E W q qs pack p p2]

/-- Taking a buildpack whose `Detect` fails without a `BuildpackError` out of
the list does not change the verdict of the loop. -/
theorem verdict_detectLoop_skip (E : Env C R V) (W : Str) (pre : List (Buildpack C))
    (q : Buildpack C) (rest : List (Buildpack C)) (pack : Bool)
    (p p2 : Option (DetectedPack C R V))
    (hq : ∃ msg, q.Detect E W = .error (.other msg))
    (hp : pack = true → p.isSome = true) (hp2 : pack = true → p2.isSome = true) :
    verdict (detectLoop E W (pre ++ q :: rest) pack p)
      = verdict (detectLoop E W (pre ++ rest) pack p2) := by
  induction pre generalizing pack p p2 with
  | nil =>
    obtain ⟨msg, hmsg⟩ := hq
    simp only [List.nil_append]
    rw [show detectLoop E W (q :: rest) pack p
        = detectLoop E W rest pack
            (some { toBuildpack := q, DetectedStackVersionRange := none }) by
      simp only [detectLoop, hmsg]]
    exact verdict_detectLoop_irrel E W rest pack _ p2 (fun _ => rfl) hp2
  | cons b bs ih =>
    simp only [List.cons_append, detectLoop]
    cases hd : b.Detect E W with
    | error err =>
      cases err with
      | buildpack be => rfl
      | other m => exact ih pack _ _ (fun _ => rfl) (fun _ => rfl)
    | ok r =>
      cases pack with
      | true => rfl
      | false =>
        simp only [Bool.false_eq_true, if_false]
        exact ih true _ _ (fun _ => rfl) (fun _ => rfl)

/-- C5, as the code has it, for every list of buildpacks.  A buildpack whose
`Detect` fails with an error that is not a `BuildpackError` (script not
started, non-zero exit) counts as no match: with or without it in the list,
`DetectProjectType` ends with the same fatal message or returns, with a
project type detected or not, alike.  A buildpack whose `Detect` returns a
`BuildpackError` ends the invocation with that error as soon as the loop
reaches it, that is whenever `DetectProjectType` returns on the buildpacks
before it, and when the loop has ended before it that end stands; so a list
that holds such a buildpack always ends fatally.  A violation of the output
contract by the script, a wrong shape or a version token that does not parse,
makes `Detect` return a `BuildpackError`. -/
theorem DetectProjectType_error_policy (E : Env C R V) (W : Str) :
    (∀ (pre : List (Buildpack C)) (q : Buildpack C) (rest : List (Buildpack C)),
      (∃ msg, q.Detect E W = .error (.other msg)) →
      verdict (DetectProjectType E W (pre ++ q :: rest))
        = verdict (DetectProjectType E W (pre ++ rest)))
    ∧ (∀ (pre : List (Buildpack C)) (bp : Buildpack C) (rest : List (Buildpack C))
        (e : BuildpackError C), bp.Detect E W = .error (.buildpack e) →
      (∀ x, DetectProjectType E W pre = .returned x →
        DetectProjectType E W (pre ++ bp :: rest) = .fatal (e.Error E))
      ∧ (∀ msg, DetectProjectType E W pre = .fatal msg →
        DetectProjectType E W (pre ++ bp :: rest) = .fatal msg))
    ∧ (∀ packs : List (Buildpack C),
      (∃ bp ∈ packs, ∃ e : BuildpackError C, bp.Detect E W = .error (.buildpack e)) →
      ∃ msg, DetectProjectType E W packs = .fatal msg)
    ∧ (∀ (bp : Buildpack C) (detected : Str),
      bp.RunScript E "detect.sh".toList bp.Scripts.Detect W = .ok detected →
      ((¬ ∃ tok, splitSpace detected = [bp.Name, tok]) →
        ∃ e : BuildpackError C, bp.Detect E W = .error (.buildpack e))
      ∧ (∀ tok err, splitSpace detected = [bp.Name, tok] → tok ≠ "default".toList →
        E.NewRange tok = .error err →
        ∃ e : BuildpackError C, bp.Detect E W = .error (.buildpack e))) := by
  have hreach : ∀ (pre : List (Buildpack C)) (bp : Buildpack C) (rest : List (Buildpack C))
      (e : BuildpackError C), bp.Detect E W = .error (.buildpack e) →
      (∀ x, DetectProjectType E W pre = .returned x →
        DetectProjectType E W (pre ++ bp :: rest) = .fatal (e.Error E))
      ∧ (∀ msg, DetectProjectType E W pre = .fatal msg →
        DetectProjectType E W (pre ++ bp :: rest) = .fatal msg) := by
    intro pre bp rest e he
    exact ⟨fun x hx => detectLoop_reach E W pre bp rest false none x e hx he,
      fun msg hmsg => detectLoop_fatal_append E W pre (bp :: rest) false none msg hmsg⟩
  refine ⟨?_, hreach, ?_, ?_⟩
  · intro pre q rest hq
    exact verdict_detectLoop_skip E W pre q rest false none none hq
      (fun h => absurd h (by decide)) (fun h => absurd h (by decide))
  · rintro packs ⟨bp, hbp, e, he⟩
    obtain ⟨pre, rest, rfl⟩ := List.append_of_mem hbp
    cases hpre : DetectProjectType E W pre with
    | fatal msg => exact ⟨msg, (hreach pre bp rest e he).2 msg hpre⟩
    | returned x => exact ⟨_, (hreach pre bp rest e he).1 x hpre⟩
  · intro bp detected hrun
    refine ⟨fun hshape => ⟨_, Detect_of_shape_mismatch E bp W detected hrun hshape⟩, ?_⟩
    intro tok err hsplit htok herr
    refine ⟨bp.ScriptErr E "detect.sh".toList "unable to parse %q as semver range: %s".toList
      [tok, err], ?_⟩
    unfold Buildpack.Detect
    simp only [hrun, hsplit, htok, herr, ne_eq, not_true_eq_false, if_true, if_false]

/-- Witness of C5 as amended: a script that exits non-zero is passed over, and
after a buildpack that matches and one that exits non-zero, a script that
prints the one-part output `nodejs` ends the invocation. -/
theorem DetectProjectType_error_policy_witness :
    verdict (DetectProjectType sampleEnv []
        ([samplePack "nodejs" "echo nodejs default"] ++ samplePack "ruby" "exit 1"
          :: [samplePack "go" "exit 1"]))
      = verdict (DetectProjectType sampleEnv []
        ([samplePack "nodejs" "echo nodejs default"] ++ [samplePack "go" "exit 1"]))
    ∧ DetectProjectType sampleEnv []
        ([samplePack "nodejs" "echo nodejs default", samplePack "ruby" "exit 1"]
          ++ samplePack "nodejs" "echo nodejs" :: [samplePack "go" "echo go default"])
      = .fatal (((samplePack "nodejs" "echo nodejs").ScriptErr sampleEnv shapeFormat
          "nodejs".toList [(samplePack "nodejs" "echo nodejs").Name]).Error sampleEnv) :=
  ⟨(DetectProjectType_error_policy sampleEnv []).1
      [samplePack "nodejs" "echo nodejs default"] (samplePack "ruby" "exit 1")
      [samplePack "go" "exit 1"] ⟨_, by rfl⟩,
   ((DetectProjectType_error_policy sampleEnv []).2.1
      [samplePack "nodejs" "echo nodejs default", samplePack "ruby" "exit 1"]
      (samplePack "nodejs" "echo nodejs") [samplePack "go" "echo go default"] _ (by rfl)).1
      _ (by rfl)⟩

/-- C5 fails as stated: the first buildpack prints the one-part output
`nodejs`, a violation of the output contract, and `DetectProjectType` ends
fatally instead of going on to the second buildpack, which matches. -/
theorem DetectProjectType_fatal_on_contract_violation :
    (∃ r, (samplePack "go" "echo go default").Detect sampleEnv [] = .ok r)
    ∧ DetectProjectType sampleEnv []
        [samplePack "nodejs" "echo nodejs", samplePack "go" "echo go default"]
      = .fatal ("buildpack nodejs: ".toList ++ shapeFormat
          ++ "; nodejs%!(EXTRA string=nodejs)".toList) :=
  ⟨⟨_, by rfl⟩, by rfl⟩

/-- Once `pack` points to the loop variable, buildpacks that fail without a
`BuildpackError` still overwrite that variable: at the end of the loop the
pointer designates the last of them. -/
theorem detectLoop_after_match (E : Env C R V) (W : Str) (post : List (Buildpack C))
    (hne : post ≠ []) (p : Option (DetectedPack C R V))
    (hpost : ∀ b ∈ post, ∃ msg, b.Detect E W = .error (.other msg)) :
    detectLoop E W post true p
      = .returned (some { toBuildpack := post.getLast hne,
                          DetectedStackVersionRange := none }) := by
  induction post generalizing p with
  | nil => exact absurd rfl hne
  | cons b bs ih =>
    obtain ⟨msg, hb⟩ := hpost b (List.mem_cons_self _ _)
    have hbs : ∀ c ∈ bs, ∃ msg, c.Detect E W = .error (.other msg) :=
      fun c hc => hpost c (List.mem_cons_of_mem _ hc)
    simp only [detectLoop, hb]
    cases bs with
    | nil => simp [detectLoop]
    | cons c cs =>
      rw [ih (List.cons_ne_nil c cs) _ hbs]
      simp [List.getLast_cons]

/-- The defect behind C6 in general: exactly one buildpack matches, all the
others fail without a `BuildpackError`, and at least one of them comes after
the match.  `DetectProjectType` returns the last buildpack of the list, not
the matching one, and without any detected range. -/
theorem DetectProjectType_single_match_not_last (E : Env C R V) (W : Str)
    (pre : List (Buildpack C)) (m : Buildpack C) (post : List (Buildpack C))
    (hne : post ≠ [])
    (hpre : ∀ b ∈ pre, ∃ msg, b.Detect E W = .error (.other msg))
    (hm : ∃ r, m.Detect E W = .ok r)
    (hpost : ∀ b ∈ post, ∃ msg, b.Detect E W = .error (.other msg)) :
    DetectProjectType E W (pre ++ m :: post)
      = .returned (some { toBuildpack := post.getLast hne,
                          DetectedStackVersionRange := none }) := by
  obtain ⟨r, hr⟩ := hm
  unfold DetectProjectType
  rw [detectLoop_skip E W pre m post false none none hpre]
  simp only [detectLoop, hr]
  exact detectLoop_after_match E W post hne _ hpost

/-- C6, the code at a failing input: the nodejs buildpack matches, the ruby
buildpack after it exits non-zero, and `DetectProjectType` returns a buildpack
named ruby. -/
theorem DetectProjectType_returns_later_pack :
    (∃ r, (samplePack "nodejs" "echo nodejs default").Detect sampleEnv [] = .ok r)
    ∧ (∃ msg, (samplePack "ruby" "exit 1").Detect sampleEnv [] = .error (.other msg))
    ∧ DetectProjectType sampleEnv []
        [samplePack "nodejs" "echo nodejs default", samplePack "ruby" "exit 1"]
      = .returned (some { toBuildpack := samplePack "ruby" "exit 1",
                          DetectedStackVersionRange := none })
    ∧ (samplePack "ruby" "exit 1").Name ≠ (samplePack "nodejs" "echo nodejs default").Name :=
  ⟨⟨_, by rfl⟩, ⟨_, by rfl⟩, by rfl, by decide⟩

/-- C7, as the code has it.  When a second buildpack matches, every buildpack
before it other than the first match failing without a `BuildpackError`,
`DetectProjectType` ends fatally at that second match with the message
`multiple project types detected: X and N`, where `N` is the name of the
second matching buildpack and `X` is the name of the first or of the second
matching buildpack.  The message is the same whatever buildpacks come after
the second match: they are not looked at and not named. -/
theorem DetectProjectType_ambiguity (E : Env C R V) (W : Str)
    (pre : List (Buildpack C)) (a : Buildpack C) (mid : List (Buildpack C))
    (b : Buildpack C)
    (hpre : ∀ q ∈ pre, ∃ msg, q.Detect E W = .error (.other msg))
    (ha : ∃ r, a.Detect E W = .ok r)
    (hmid : ∀ q ∈ mid, ∃ msg, q.Detect E W = .error (.other msg))
    (hb : ∃ r, b.Detect E W = .ok r) :
    ∃ x : Str, (x = a.Name ∨ x = b.Name)
      ∧ ∀ post : List (Buildpack C),
          DetectProjectType E W (pre ++ a :: (mid ++ b :: post))
            = .fatal ("multiple project types detected: ".toList ++ x ++ " and ".toList
                ++ b.Name) := by
  obtain ⟨ra, hra⟩ := ha
  obtain ⟨rb, hrb⟩ := hb
  refine ⟨b.Name, Or.inr rfl, ?_⟩
  intro post
  unfold DetectProjectType
  rw [detectLoop_skip E W pre a (mid ++ b :: post) false none none hpre]
  simp only [detectLoop, hra]
  rw [detectLoop_skip E W mid b post true _ none hmid]
  simp only [detectLoop, hrb, Sprintf_multiple]
  rfl

/-- Witness of C7 as amended: nodejs matches, ruby exits non-zero, go
matches, and anything may follow. -/
theorem DetectProjectType_ambiguity_witness :
    ∃ x : Str, (x = (samplePack "nodejs" "echo nodejs default").Name
        ∨ x = (samplePack "go" "echo go default").Name)
      ∧ ∀ post : List (Buildpack (List Str)),
          DetectProjectType sampleEnv []
            ([] ++ samplePack "nodejs" "echo nodejs default"
              :: ([samplePack "ruby" "exit 1"] ++ samplePack "go" "echo go default" :: post))
          = .fatal ("multiple project types detected: ".toList ++ x ++ " and ".toList
              ++ (samplePack "go" "echo go default").Name) :=
  DetectProjectType_ambiguity sampleEnv [] [] (samplePack "nodejs" "echo nodejs default")
    [samplePack "ruby" "exit 1"] (samplePack "go" "echo go default")
    (by intro q hq; cases hq)
    ⟨_, by rfl⟩
    (by
      intro q hq
      simp only [List.mem_singleton] at hq
      subst hq
      exact ⟨_, by rfl⟩)
    ⟨_, by rfl⟩

/-- C7 fails as stated.  Three buildpacks match, and the message of the fatal
exit does not name the third, `go`: the loop ends at the second match.  Two
buildpacks with distinct names match, and the message does not name the first,
`nodejs`: `pack` points to the loop variable, which holds the second by then
(the defect of C6). -/
theorem DetectProjectType_ambiguity_omits_third :
    (∃ r, (samplePack "nodejs" "echo nodejs default").Detect sampleEnv [] = .ok r)
    ∧ (∃ r, (samplePack "ruby" "echo ruby default").Detect sampleEnv [] = .ok r)
    ∧ (∃ r, (samplePack "go" "echo go default").Detect sampleEnv [] = .ok r)
    ∧ DetectProjectType sampleEnv []
        [samplePack "nodejs" "echo nodejs default", samplePack "ruby" "echo ruby default",
          samplePack "go" "echo go default"]
      = .fatal "multiple project types detected: ruby and ruby".toList
    ∧ ¬ (samplePack "go" "echo go default").Name
          <:+: "multiple project types detected: ruby and ruby".toList
    ∧ DetectProjectType sampleEnv []
        [samplePack "nodejs" "echo nodejs default", samplePack "ruby" "echo ruby default"]
      = .fatal "multiple project types detected: ruby and ruby".toList
    ∧ ¬ (samplePack "nodejs" "echo nodejs default").Name
          <:+: "multiple project types detected: ruby and ruby".toList :=
  ⟨⟨_, by rfl⟩, ⟨_, by rfl⟩, ⟨_, by rfl⟩, by rfl, by decide, by rfl, by decide⟩

end CoreTheorems

/-! ## Decimal text of an `int` -/

section Decimal

theorem digitChar_spec (k : Nat) (hk : k < 10) :
    (Nat.digitChar k).isDigit = true ∧ (Nat.digitChar k).toNat - 48 = k := by
  interval_cases k <;> decide

theorem digitsValue_append_singleton (ds : Str) (c : Char) :
    digitsValue (ds ++ [c]) = digitsValue ds * 10 + (c.toNat - 48) := by
  simp [digitsValue, List.foldl_append]

/-- The digits `Nat.toDigitsCore` puts in front of its accumulator. -/
theorem toDigitsCore_spec (fuel : Nat) : ∀ (m : Nat) (acc : Str), m < fuel →
    ∃ ds : Str, Nat.toDigitsCore 10 fuel m acc = ds ++ acc ∧ ds ≠ []
      ∧ (∀ c ∈ ds, c.isDigit = true) ∧ digitsValue ds = m := by
  induction fuel with
  | zero => intro m acc h; exact absurd h (Nat.not_lt_zero _)
  | succ fuel ih =>
    intro m acc hm
    obtain ⟨hd, hv⟩ := digitChar_spec (m % 10) (Nat.mod_lt _ (by decide))
    by_cases h0 : m / 10 = 0
    · refine ⟨[Nat.digitChar (m % 10)], ?_, by simp, ?_, ?_⟩
      · simp [Nat.toDigitsCore, h0]
      · intro c hc
        simp only [List.mem_singleton] at hc
        rw [hc]; exact hd
      · have hlt : m < 10 := by omega
        have hm2 := (digitChar_spec m hlt).2
        rw [Nat.mod_eq_of_lt hlt]
        simpa [digitsValue] using hm2
    · have hlt : m / 10 < fuel := by omega
      obtain ⟨ds, hds, _, hall, hval⟩ := ih (m / 10) (Nat.digitChar (m % 10) :: acc) hlt
      refine ⟨ds ++ [Nat.digitChar (m % 10)], ?_, by simp, ?_, ?_⟩
      · simp [Nat.toDigitsCore, h0, hds]
      · intro c hc
        rcases List.mem_append.mp hc with h | h
        · exact hall c h
        · simp only [List.mem_singleton] at h
          rw [h]; exact hd
      · rw [digitsValue_append_singleton, hval, hv]
        omega

theorem toDigits_spec (m : Nat) :
    Nat.toDigits 10 m ≠ [] ∧ (∀ c ∈ Nat.toDigits 10 m, c.isDigit = true)
      ∧ digitsValue (Nat.toDigits 10 m) = m := by
  obtain ⟨ds, hds, hne, hall, hval⟩ := toDigitsCore_spec (m + 1) m [] (Nat.lt_succ_self m)
  have : Nat.toDigits 10 m = ds := by simp [Nat.toDigits, hds]
  rw [this]
  exact ⟨hne, hall, hval⟩

/-- `strconv.Atoi` on a non-empty string of digits. -/
theorem Atoi_digits (ds : Str) (hne : ds ≠ []) (hall : ∀ c ∈ ds, c.isDigit = true) :
    Atoi ds = (if minInt ≤ (digitsValue ds : Int) ∧ (digitsValue ds : Int) ≤ maxInt
      then some (digitsValue ds : Int) else none)
    ∧ Atoi ('-' :: ds) = (if minInt ≤ -(digitsValue ds : Int) ∧ -(digitsValue ds : Int) ≤ maxInt
      then some (-(digitsValue ds : Int)) else none) := by
  obtain ⟨d, rest, hcons⟩ := List.exists_cons_of_ne_nil hne
  have hd : d.isDigit = true := hall d (by rw [hcons]; exact List.mem_cons_self _ _)
  have hdm : d ≠ '-' := by rintro rfl; revert hd; decide
  have hdp : d ≠ '+' := by rintro rfl; revert hd; decide
  have hall2 : ds.all Char.isDigit = true := by rw [List.all_eq_true]; exact hall
  constructor
  · have hh : ¬ (ds.head? = some '-' ∨ ds.head? = some '+') := by
      rw [hcons]; simp [hdm, hdp]
    have hm : ¬ ds.head? = some '-' := fun h => hh (Or.inl h)
    have hc : ¬ (ds = [] ∨ ¬ (ds.all Char.isDigit = true)) := by
      rintro (h | h)
      · exact hne h
      · exact h hall2
    simp only [Atoi, if_neg hh, if_neg hc, if_neg hm]
  · have hc : ¬ (ds = [] ∨ ¬ (ds.all Char.isDigit = true)) := by
      rintro (h | h)
      · exact hne h
      · exact h hall2
    simp only [Atoi, List.head?_cons, true_or, if_true, List.tail_cons, if_neg hc]

/-- `strconv.Atoi` reads back what `strconv.Itoa` writes. -/
theorem Atoi_Itoa (n : Int) (hlo : minInt ≤ n) (hhi : n ≤ maxInt) :
    Atoi (Itoa n) = some n := by
  obtain ⟨hne, hall, hval⟩ := toDigits_spec n.natAbs
  obtain ⟨h1, h2⟩ := Atoi_digits _ hne hall
  rw [hval] at h1 h2
  by_cases hneg : n < 0
  · have hn : -((n.natAbs : Nat) : Int) = n := by omega
    rw [hn] at h2
    simp only [Itoa, if_pos hneg, h2, hlo, hhi, and_self, if_true]
  · have hn : ((n.natAbs : Nat) : Int) = n := by omega
    rw [hn] at h1
    simp only [Itoa, if_neg hneg, h1, hlo, hhi, and_self, if_true]

theorem Atoi_range (s : Str) (n : Int) (h : Atoi s = some n) : minInt ≤ n ∧ n ≤ maxInt := by
  simp only [Atoi] at h
  split_ifs at h with c1 c2 c3 c4 c5
  all_goals (cases h; assumption)

theorem Atoi_nil : Atoi [] = none := by decide

theorem wrapInt_range (n : Int) : minInt ≤ wrapInt n ∧ wrapInt n ≤ maxInt := by
  have h1 : (0 : Int) ≤ (n - minInt) % (2 ^ intSize) := Int.emod_nonneg _ (by decide)
  have h2 : (n - minInt) % (2 ^ intSize) < (2 ^ intSize) := Int.emod_lt_of_pos _ (by decide)
  have e1 : (2 : Int) ^ intSize = 18446744073709551616 := by decide
  have e2 : minInt = -9223372036854775808 := by decide
  have e3 : maxInt = 9223372036854775807 := by decide
  unfold wrapInt
  rw [e1] at h1 h2 ⊢
  rw [e2, e3] at *
  omega

theorem wrapInt_of_range (n : Int) (hlo : minInt ≤ n) (hhi : n ≤ maxInt) : wrapInt n = n := by
  have e1 : (2 : Int) ^ intSize = 18446744073709551616 := by decide
  have e2 : minInt = -9223372036854775808 := by decide
  have e3 : maxInt = 9223372036854775807 := by decide
  unfold wrapInt
  rw [e1]
  rw [e2] at hlo ⊢
  rw [e3] at hhi
  rw [Int.emod_eq_of_lt (by omega) (by omega)]
  omega

end Decimal

/-! ## Build numbering -/

section BuildNumber

theorem counterFile_eq (Q : Str → Str) (git : GitInfo) :
    Sprintf Q "%s/%s".toList
        [Sprintf Q "~/.ot/build_numbers/%s".toList [git.CanonicalName], git.CommitSHA]
      = counterFile git := by
  simp [Sprintf, printOperand, extraOperands, counterFile]

theorem getBuildNumber_no_override (Q : Str → Str) (fs : Storage) (git : GitInfo) :
    getBuildNumber Q [] fs git = getBuildNumberFromHomeDirectory Q fs git := by
  simp [getBuildNumber, tryGetBuildNumberFromEnv]

/-- Without a counter file the call returns 1 and leaves the text of 1. -/
theorem home_no_file (Q : Str → Str) (fs : Storage) (git : GitInfo)
    (h : fs.files (counterFile git) = none) :
    (getBuildNumberFromHomeDirectory Q fs git).1 = .returned 1
    ∧ (getBuildNumberFromHomeDirectory Q fs git).2.files (counterFile git)
        = some (Itoa 1) := by
  simp only [getBuildNumberFromHomeDirectory, counterFile_eq, readFileString,
    ensureDirExists, h]
  simp [writeFile]

/-- With a counter file that holds `n` the call returns the successor of `n`
in `int` arithmetic and leaves its text. -/
theorem home_file (Q : Str → Str) (fs : Storage) (git : GitInfo) (s : Str) (n : Int)
    (h : fs.files (counterFile git) = some s) (hn : Atoi s = some n) :
    (getBuildNumberFromHomeDirectory Q fs git).1 = .returned (wrapInt (n + 1))
    ∧ (getBuildNumberFromHomeDirectory Q fs git).2.files (counterFile git)
        = some (Itoa (wrapInt (n + 1))) := by
  simp only [getBuildNumberFromHomeDirectory, counterFile_eq, readFileString,
    ensureDirExists, h, hn]
  simp [writeFile]

/-- Whatever the call returns is what it leaves in the counter file. -/
theorem home_stores_result (Q : Str → Str) (fs : Storage) (git : GitInfo) (r : Int)
    (h : (getBuildNumberFromHomeDirectory Q fs git).1 = .returned r) :
    (getBuildNumberFromHomeDirectory Q fs git).2.files (counterFile git) = some (Itoa r)
    ∧ Atoi (Itoa r) = some r := by
  cases hf : fs.files (counterFile git) with
  | none =>
    obtain ⟨h1, h2⟩ := home_no_file Q fs git hf
    rw [h1] at h
    cases h
    exact ⟨h2, by decide⟩
  | some s =>
    cases hn : Atoi s with
    | none =>
      simp only [getBuildNumberFromHomeDirectory, counterFile_eq, readFileString,
        ensureDirExists, hf, hn] at h
      cases h
    | some n =>
      obtain ⟨h1, h2⟩ := home_file Q fs git s n hf hn
      rw [h1] at h
      cases h
      exact ⟨h2, Atoi_Itoa _ (wrapInt_range _).1 (wrapInt_range _).2⟩

/-- C9, as the code has it.  With no `BUILD_NUMBER` override: without a counter
file `getBuildNumber` returns 1 and stores 1; with a counter file that holds
an integer `n` below the largest `int` it returns `n + 1` and stores `n + 1`;
so two calls in a row that start without a file give 1 then 2; and after a
call that returned `r`, below the largest `int`, the next call returns
`r + 1`, which is greater.  To store `r` is to leave the text `Itoa r` in the
counter file, which `Atoi` reads back as `r`. -/
theorem getBuildNumber_counter (Quote : Str → Str) (fs : Storage) (git : GitInfo) :
    (fs.files (counterFile git) = none →
      (getBuildNumber Quote [] fs git).1 = .returned 1
      ∧ (getBuildNumber Quote [] fs git).2.files (counterFile git) = some (Itoa 1)
      ∧ Atoi (Itoa 1) = some 1)
    ∧ (∀ s n, fs.files (counterFile git) = some s → Atoi s = some n → n < maxInt →
      (getBuildNumber Quote [] fs git).1 = .returned (n + 1)
      ∧ (getBuildNumber Quote [] fs git).2.files (counterFile git) = some (Itoa (n + 1))
      ∧ Atoi (Itoa (n + 1)) = some (n + 1))
    ∧ (fs.files (counterFile git) = none →
      (getBuildNumber Quote [] fs git).1 = .returned 1
      ∧ (getBuildNumber Quote [] (getBuildNumber Quote [] fs git).2 git).1 = .returned 2)
    ∧ (∀ r, (getBuildNumber Quote [] fs git).1 = .returned r → r < maxInt →
      (getBuildNumber Quote [] (getBuildNumber Quote [] fs git).2 git).1 = .returned (r + 1)
      ∧ r < r + 1) := by
  have step : ∀ r, (getBuildNumber Quote [] fs git).1 = .returned r → r < maxInt →
      (getBuildNumber Quote [] (getBuildNumber Quote [] fs git).2 git).1
        = .returned (r + 1) := by
    intro r hr hlt
    rw [getBuildNumber_no_override] at hr
    obtain ⟨hfile, hback⟩ := home_stores_result Quote fs git r hr
    have hlo := (Atoi_range _ _ hback).1
    simp only [getBuildNumber_no_override]
    rw [(home_file Quote _ git _ r hfile hback).1,
      wrapInt_of_range (r + 1) (by omega) (by omega)]
  refine ⟨?_, ?_, ?_, ?_⟩
  · intro h
    rw [getBuildNumber_no_override]
    exact ⟨(home_no_file Quote fs git h).1, (home_no_file Quote fs git h).2, by decide⟩
  · intro s n h hn hlt
    have hlo := (Atoi_range s n hn).1
    have hw : wrapInt (n + 1) = n + 1 := wrapInt_of_range (n + 1) (by omega) (by omega)
    rw [getBuildNumber_no_override]
    obtain ⟨h1, h2⟩ := home_file Quote fs git s n h hn
    rw [hw] at h1 h2
    exact ⟨h1, h2, Atoi_Itoa _ (by omega) (by omega)⟩
  · intro h
    have h1 : (getBuildNumber Quote [] fs git).1 = .returned 1 := by
      rw [getBuildNumber_no_override]; exact (home_no_file Quote fs git h).1
    exact ⟨h1, step 1 h1 (by decide)⟩
  · intro r hr hlt
    exact ⟨step r hr hlt, by omega⟩

/-- Witness of C9 as amended: two calls in a row for `sampleGit` on a storage
without counter file. -/
theorem getBuildNumber_counter_witness :
    (getBuildNumber sampleQuote [] (sampleStorage none) sampleGit).1 = .returned 1
    ∧ (getBuildNumber sampleQuote []
        (getBuildNumber sampleQuote [] (sampleStorage none) sampleGit).2 sampleGit).1
      = .returned 2 :=
  (getBuildNumber_counter sampleQuote (sampleStorage none) sampleGit).2.2.1 (by decide)

/-- C9 fails as stated: the counter file holds the largest `int`, and
`getBuildNumber` returns and stores the smallest `int`, not the successor. -/
theorem getBuildNumber_wraps_at_maxInt :
    (sampleStorage (some "9223372036854775807")).files (counterFile sampleGit)
      = some "9223372036854775807".toList
    ∧ Atoi "9223372036854775807".toList = some 9223372036854775807
    ∧ (getBuildNumber sampleQuote [] (sampleStorage (some "9223372036854775807"))
        sampleGit).1 = .returned (-9223372036854775808)
    ∧ (getBuildNumber sampleQuote [] (sampleStorage (some "9223372036854775807"))
        sampleGit).2.files (counterFile sampleGit) = some "-9223372036854775808".toList := by
  decide

/-- C10. When `$BUILD_NUMBER` holds an integer, `getBuildNumber` returns that
integer and leaves the storage as it was: directories, files and the list of
accesses are the same, so no directory was created and no counter file was
read, created or written. -/
theorem getBuildNumber_override (Quote : Str → Str) (envBN : Str) (n : Int) (fs : Storage)
    (git : GitInfo) (h : Atoi envBN = some n) :
    getBuildNumber Quote envBN fs git = (.returned n, fs) := by
  have hne : envBN ≠ [] := by
    rintro rfl
    rw [Atoi_nil] at h
    cases h
  simp [getBuildNumber, tryGetBuildNumberFromEnv, hne, h]

/-- Witness of C10: the override 42 on a storage whose counter file holds 7. -/
theorem getBuildNumber_override_witness :
    getBuildNumber sampleQuote "42".toList (sampleStorage (some "7")) sampleGit
      = (.returned 42, sampleStorage (some "7")) :=
  getBuildNumber_override sampleQuote "42".toList 42 (sampleStorage (some "7")) sampleGit
    (by decide)

end BuildNumber


/-! ## Trimming -/

section TrimLemmas

theorem dropWhile_decomp (p : Char → Bool) (s : Str) :
    ∃ pre : Str, s = pre ++ s.dropWhile p ∧ ∀ c ∈ pre, p c = true :=
  ⟨s.takeWhile p, (List.takeWhile_append_dropWhile p s).symm,
    fun _ hc => List.mem_takeWhile_imp hc⟩

theorem dropWhile_head (p : Char → Bool) (s : Str) (c : Char)
    (h : (s.dropWhile p).head? = some c) : p c = false := by
  have := List.head?_dropWhile_not p s
  rw [h] at this
  exact this

/-- `TrimRight` cuts a suffix made of characters of the cutset. -/
theorem TrimRight_decomp (s cutset : Str) :
    ∃ post : Str, s = TrimRight s cutset ++ post ∧ ∀ c ∈ post, c ∈ cutset := by
  obtain ⟨pre, hpre, hall⟩ := dropWhile_decomp (fun c => decide (c ∈ cutset)) s.reverse
  refine ⟨pre.reverse, ?_, ?_⟩
  · have := congrArg List.reverse hpre
    simpa [TrimRight] using this
  · intro c hc
    have := hall c (List.mem_reverse.mp hc)
    simpa using this

theorem TrimRight_getLast (s cutset : Str) (c : Char)
    (h : (TrimRight s cutset).getLast? = some c) : c ∉ cutset := by
  unfold TrimRight at h
  rw [List.getLast?_reverse] at h
  have := dropWhile_head _ _ _ h
  simpa using this

/-- `TrimLeft` cuts a prefix made of characters of the cutset. -/
theorem TrimLeft_decomp (s cutset : Str) :
    ∃ pre : Str, s = pre ++ TrimLeft s cutset ∧ ∀ c ∈ pre, c ∈ cutset := by
  obtain ⟨pre, hpre, hall⟩ := dropWhile_decomp (fun c => decide (c ∈ cutset)) s
  exact ⟨pre, hpre, fun c hc => by simpa using hall c hc⟩

theorem TrimLeft_head (s cutset : Str) (c : Char)
    (h : (TrimLeft s cutset).head? = some c) : c ∉ cutset := by
  have := dropWhile_head _ _ _ h
  simpa using this

/-- What `Trim` removes: a prefix and a suffix made of characters of the
cutset. -/
theorem Trim_decomp (s cutset : Str) :
    ∃ pre post : Str, s = pre ++ Trim s cutset ++ post
      ∧ (∀ c ∈ pre, c ∈ cutset) ∧ (∀ c ∈ post, c ∈ cutset) := by
  obtain ⟨pre, hpre, hall⟩ := TrimLeft_decomp s cutset
  obtain ⟨post, hpost, hall2⟩ := TrimRight_decomp (TrimLeft s cutset) cutset
  refine ⟨pre, post, ?_, hall, hall2⟩
  unfold Trim
  rw [List.append_assoc, ← hpost, ← hpre]

/-- The result of `Trim` does not start with a character of the cutset. -/
theorem Trim_head (s cutset : Str) (c : Char) (h : (Trim s cutset).head? = some c) :
    c ∉ cutset := by
  obtain ⟨post, hpost, _⟩ := TrimRight_decomp (TrimLeft s cutset) cutset
  apply TrimLeft_head s cutset c
  rw [hpost, List.head?_append]
  unfold Trim at h
  rw [h]
  rfl

/-- The result of `Trim` does not end with a character of the cutset. -/
theorem Trim_getLast (s cutset : Str) (c : Char) (h : (Trim s cutset).getLast? = some c) :
    c ∉ cutset :=
  TrimRight_getLast (TrimLeft s cutset) cutset c h

end TrimLemmas

/-! ## The app target -/

section AppTargetTheorems

/-- C11. For a payload that is a string map with the key `artifactPath`,
`SetState` from the producer `compile` returns with the stored artifact path
equal to the value under that key and nothing else changed; from every other
producer, whatever the payload, it returns with the target as it was. -/
theorem SetState_propagates {T : Type} (Fatalf : Str → Payload → Str) (t : AppTarget T)
    (m : Str → Option Str) (v : Str) (hkey : m "artifactPath".toList = some v) :
    t.SetState Fatalf "compile".toList (.stringMap m)
        = (.returned (), { t with artifactPath := v })
    ∧ (t.SetState Fatalf "compile".toList (.stringMap m)).2.artifactPath = v
    ∧ ∀ (fromTarget : Str) (state : Payload), fromTarget ≠ "compile".toList →
        t.SetState Fatalf fromTarget state = (.returned (), t) := by
  refine ⟨?_, ?_, ?_⟩
  · simp only [AppTarget.SetState, ne_eq, not_true_eq_false, if_false, hkey]
  · simp only [AppTarget.SetState, ne_eq, not_true_eq_false, if_false, hkey]
  · intro fromTarget state hne
    simp only [AppTarget.SetState, ne_eq, hne, not_false_eq_true, if_true]

/-- Witness of C11: the payload `{artifactPath: "/tmp/x.tar.gz"}`. -/
theorem SetState_propagates_witness :
    sampleTarget.SetState sampleFatalf "compile".toList (.stringMap sampleState)
        = (.returned (), { sampleTarget with artifactPath := "/tmp/x.tar.gz".toList })
    ∧ (sampleTarget.SetState sampleFatalf "compile".toList
        (.stringMap sampleState)).2.artifactPath = "/tmp/x.tar.gz".toList
    ∧ ∀ (fromTarget : Str) (state : Payload), fromTarget ≠ "compile".toList →
        sampleTarget.SetState sampleFatalf fromTarget state = (.returned (), sampleTarget) :=
  SetState_propagates sampleFatalf sampleTarget sampleState "/tmp/x.tar.gz".toList (by decide)

/-- C12. Under the producer `compile`, a payload that is not a
`map[string]string`, and a `map[string]string` without the key
`artifactPath`, make `SetState` end the process with `cli.Fatalf`; the target,
and so its artifact path, is as before the call. -/
theorem SetState_rejects_bad_payload {T : Type} (Fatalf : Str → Payload → Str)
    (t : AppTarget T) (state : Payload)
    (hbad : (∃ typeName, state = .other typeName)
      ∨ (∃ m, state = .stringMap m ∧ m "artifactPath".toList = none)) :
    ∃ msg, t.SetState Fatalf "compile".toList state = (.fatal msg, t) := by
  rcases hbad with ⟨typeName, rfl⟩ | ⟨m, rfl, hm⟩
  · refine ⟨Fatalf
      "app target got a %T from compile target, expected map[string]string".toList
      (.other typeName), ?_⟩
    simp only [AppTarget.SetState, ne_eq, not_true_eq_false, if_false]
  · refine ⟨Fatalf
      "app target got %+v from compile target; expected key \x27artifactPath\x27".toList
      (.stringMap m), ?_⟩
    simp only [AppTarget.SetState, ne_eq, not_true_eq_false, if_false, hm]

/-- Witness of C12: an `int` payload. -/
theorem SetState_rejects_bad_payload_witness :
    ∃ msg, sampleTarget.SetState sampleFatalf "compile".toList (.other "int".toList)
      = (.fatal msg, sampleTarget) :=
  SetState_rejects_bad_payload sampleFatalf sampleTarget (.other "int".toList)
    (Or.inl ⟨_, rfl⟩)

end AppTargetTheorems

/-! ## The script runner -/

section RunScriptTheorems

variable {C R V : Type}

theorem Sprintf_script_error (Q : Str → Str) (e n c : Str) :
    Sprintf Q "Error: %s; output from %s:\n%s".toList [e, n, c]
      = "Error: ".toList ++ e ++ "; output from ".toList ++ n ++ ":\n".toList ++ c := by
  simp [Sprintf, printOperand, extraOperands]

/-- C13. The result of `RunScript` by the outcome of the subprocess.  When
`Wait` returns nil (exit status zero) the result is the captured stdout
without the leading and the trailing characters among newline, carriage
return, tab and space: what is cut is made of these characters only, and the
result neither starts nor ends with one of them.  When `Wait` returns an error
(non-zero exit status) the result is an error, Go returning the empty string
with it, whose text contains the name of the script and the whole combined
stream. -/
theorem RunScript_by_outcome (E : Env C R V) (bp : Buildpack C) (name contents inDir : Str) :
    (∀ stdout stderr combined,
      E.exec inDir name (Sprintf E.Quote "%s\n\n# base.sh\n%s\n\n# %s\n%s\n".toList
          [bp.Scripts.Common, bp.Scripts.Base, name, contents])
        = .exited none stdout stderr combined →
      bp.RunScript E name contents inDir = .ok (Trim stdout "\n\r\t ".toList)
      ∧ (∃ pre post : Str, stdout = pre ++ Trim stdout "\n\r\t ".toList ++ post
          ∧ (∀ c ∈ pre, c ∈ "\n\r\t ".toList) ∧ (∀ c ∈ post, c ∈ "\n\r\t ".toList))
      ∧ (∀ c, (Trim stdout "\n\r\t ".toList).head? = some c → c ∉ "\n\r\t ".toList)
      ∧ (∀ c, (Trim stdout "\n\r\t ".toList).getLast? = some c → c ∉ "\n\r\t ".toList))
    ∧ (∀ err stdout stderr combined,
      E.exec inDir name (Sprintf E.Quote "%s\n\n# base.sh\n%s\n\n# %s\n%s\n".toList
          [bp.Scripts.Common, bp.Scripts.Base, name, contents])
        = .exited (some err) stdout stderr combined →
      ∃ msg, bp.RunScript E name contents inDir = .error msg
        ∧ name <:+: msg ∧ combined <:+: msg) := by
  constructor
  · intro stdout stderr combined h
    refine ⟨?_, Trim_decomp _ _, Trim_head _ _, Trim_getLast _ _⟩
    simp only [Buildpack.RunScript, h]
  · intro err stdout stderr combined h
    refine ⟨Sprintf E.Quote "Error: %s; output from %s:\n%s".toList [err, name, combined],
      by simp only [Buildpack.RunScript, h], ?_, ?_⟩
    · rw [Sprintf_script_error]
      exact ⟨"Error: ".toList ++ err ++ "; output from ".toList, ":\n".toList ++ combined,
        by simp⟩
    · rw [Sprintf_script_error]
      exact List.suffix_append _ _ |>.isInfix

/-- Witness of C13: a script that prints `nodejs default` and exits with
status 0, and a script that exits with status 2 after writing to both
streams. -/
theorem RunScript_by_outcome_witness :
    (samplePack "nodejs" "echo nodejs default").RunScript sampleEnv "detect.sh".toList
        "echo nodejs default".toList [] = .ok "nodejs default".toList
    ∧ ∃ msg, (samplePack "nodejs" "exit 2").RunScript sampleFailEnv "detect.sh".toList
        "exit 2".toList [] = .error msg
      ∧ "detect.sh".toList <:+: msg ∧ "out\nerr\n".toList <:+: msg :=
  ⟨((RunScript_by_outcome sampleEnv (samplePack "nodejs" "echo nodejs default")
      "detect.sh".toList "echo nodejs default".toList []).1 "nodejs default\n".toList []
      "nodejs default\n".toList (by rfl)).1,
   (RunScript_by_outcome sampleFailEnv (samplePack "nodejs" "exit 2") "detect.sh".toList
      "exit 2".toList []).2 "exit status 2".toList "out\n".toList "err\n".toList
      "out\nerr\n".toList (by rfl)⟩

end RunScriptTheorems


/-! ## Parsing a buildpack directory -/

section ParseTheorems

variable {C : Type}

theorem Sprintf_unable_to_read (Q : Str → Str) (p : Str) :
    Sprintf Q "unable to read file %s".toList [p] = "unable to read file ".toList ++ p := by
  simp [Sprintf, printOperand, extraOperands]

/-- C14, as the code has it.  `ParseBuildpack` returns an error if and only if
at least one of the five files cannot be read, and the error is then
`unable to read file` followed by the path of the last of the five, in the
order base.sh, command.sh, compile.sh, detect.sh, test.sh, that cannot be
read. -/
theorem ParseBuildpack_error (Quote : Str → Str) (Join : Str → Str → Str)
    (ReadString : Str → Option Str) (nilVersions : C) (baseDir : Str) :
    ((ParseBuildpack Quote Join ReadString nilVersions baseDir).2 ≠ none
      ↔ ∃ f ∈ scriptFiles, ReadString (Join baseDir f) = none)
    ∧ (ParseBuildpack Quote Join ReadString nilVersions baseDir).2
      = (scriptFiles.reverse.find? (fun f => (ReadString (Join baseDir f)).isNone)).map
          (fun f => "unable to read file ".toList ++ Join baseDir f) := by
  have hfind : (ParseBuildpack Quote Join ReadString nilVersions baseDir).2
      = (scriptFiles.reverse.find? (fun f => (ReadString (Join baseDir f)).isNone)).map
          (fun f => "unable to read file ".toList ++ Join baseDir f) := by
    simp only [ParseBuildpack, scriptFiles, Sprintf_unable_to_read, List.reverse_cons,
      List.reverse_nil, List.nil_append, List.cons_append, List.find?_cons, List.find?_nil]
    cases h5 : ReadString (Join baseDir "test.sh".toList) <;>
    cases h4 : ReadString (Join baseDir "detect.sh".toList) <;>
    cases h3 : ReadString (Join baseDir "compile.sh".toList) <;>
    cases h2 : ReadString (Join baseDir "command.sh".toList) <;>
    cases h1 : ReadString (Join baseDir "base.sh".toList) <;>
    simp
  refine ⟨?_, hfind⟩
  rw [hfind]
  simp only [ne_eq, Option.map_eq_none', List.find?_eq_none, List.mem_reverse,
    Option.isNone_iff_eq_none, not_forall, Classical.not_imp, not_not, exists_prop]

/-- C14 fails as stated: base.sh and test.sh cannot be read, base.sh is the
first such file, and the error names the path of test.sh. -/
theorem ParseBuildpack_names_last_unreadable :
    sampleRead ["/packs/nodejs/base.sh", "/packs/nodejs/test.sh"]
        (sampleJoin "/packs/nodejs".toList "base.sh".toList) = none
    ∧ (ParseBuildpack sampleQuote sampleJoin
        (sampleRead ["/packs/nodejs/base.sh", "/packs/nodejs/test.sh"])
        ([] : List Str) "/packs/nodejs".toList).2
      = some "unable to read file /packs/nodejs/test.sh".toList
    ∧ ¬ sampleJoin "/packs/nodejs".toList "base.sh".toList
        <:+: "unable to read file /packs/nodejs/test.sh".toList := by
  decide

end ParseTheorems

/-! ## Deploy checks -/

section CheckTheorems

/-- C16. `HTTPCheck.Validate` returns nil exactly when `GET` is not empty, one
of `StatusCode` (not zero), `StatusCodeRange` (not empty), `BodyContainsString`
and `BodyDoesNotContainString` is supplied, `StatusCode` is between 0 and 999,
and `StatusCodeRange` is empty or has exactly 2 elements. -/
theorem HTTPCheck_Validate_nil_iff (Quote : Str → Str) (c : HTTPCheck) :
    c.Validate Quote = none
      ↔ c.GET ≠ []
        ∧ (c.StatusCode ≠ 0 ∨ c.StatusCodeRange ≠ [] ∨ c.BodyContainsString ≠ []
            ∨ c.BodyDoesNotContainString ≠ [])
        ∧ (0 ≤ c.StatusCode ∧ c.StatusCode ≤ 999)
        ∧ (c.StatusCodeRange = [] ∨ c.StatusCodeRange.length = 2) := by
  unfold HTTPCheck.Validate
  have hlen : c.StatusCodeRange = [] ↔ c.StatusCodeRange.length = 0 :=
    List.length_eq_zero.symm
  split_ifs with h1 h2 h3 h4
  · simp [h1]
  · obtain ⟨a, b, d, e⟩ := h2
    simp [a, hlen.mpr b, d, e]
  · have : ¬ (0 ≤ c.StatusCode ∧ c.StatusCode ≤ 999) := by omega
    simp [this]
  · have : ¬ (c.StatusCodeRange = [] ∨ c.StatusCodeRange.length = 2) := by
      rw [hlen]; omega
    simp [this]
  · have h5 : c.StatusCodeRange = [] ∨ c.StatusCodeRange.length = 2 := by
      rw [hlen]; omega
    have h6 : 0 ≤ c.StatusCode ∧ c.StatusCode ≤ 999 := by omega
    have h7 : c.StatusCode ≠ 0 ∨ c.StatusCodeRange ≠ [] ∨ c.BodyContainsString ≠ []
        ∨ c.BodyDoesNotContainString ≠ [] := by
      by_contra hcon
      push_neg at hcon
      exact h2 ⟨hcon.1, hlen.mp hcon.2.1, hcon.2.2.1, hcon.2.2.2⟩
    simp only [true_iff]
    exact ⟨h1, h7, h6, h5⟩

/-- When `Check.Validate` returns nil: exactly one of the two embedded
validations returns nil. -/
theorem Check_Validate_nil_iff (Quote : Str → Str) (c : Check) :
    c.Validate Quote = none
      ↔ (c.toHTTPCheck.Validate Quote = none ∧ c.toShellCheck.Validate Quote ≠ none)
        ∨ (c.toHTTPCheck.Validate Quote ≠ none ∧ c.toShellCheck.Validate Quote = none) := by
  unfold Check.Validate
  cases hh : c.toHTTPCheck.Validate Quote <;> cases hs : c.toShellCheck.Validate Quote
  · simp
  · simp
  · simp
  · simp only [ne_eq, not_true_eq_false, and_false, reduceCtorEq, not_false_eq_true,
      and_true, or_self, iff_false]
    split_ifs <;> simp

/-- C15, the code at a failing input: `GET` and `Shell` are both specified,
the HTTP part has no assertion about the response, and `Check.Validate`
returns nil. -/
theorem Check_Validate_accepts_both :
    sampleBothCheck.GET ≠ [] ∧ sampleBothCheck.Shell ≠ []
    ∧ sampleBothCheck.toHTTPCheck.Validate sampleQuote ≠ none
    ∧ sampleBothCheck.Validate sampleQuote = none := by
  decide

/-- A check that `HTTPCheck.Validate` accepts has an empty range of status
codes or one of exactly 2 elements. -/
theorem Validate_nil_range (Quote : Str → Str) (c : HTTPCheck)
    (hvalid : c.Validate Quote = none) :
    c.StatusCodeRange = [] ∨ c.StatusCodeRange.length = 2 := by
  unfold HTTPCheck.Validate at hvalid
  split_ifs at hvalid with h1 h2 h3 h4
  rw [← List.length_eq_zero]
  omega

/-- C20. For a check on which `HTTPCheck.Validate` returns nil, the range of
status codes is empty or has exactly 2 elements, and `HTTPCheck.Execute`,
which indexes the range only when it is not empty, does not panic, whatever
`http.Get` gives. -/
theorem HTTPCheck_Execute_in_bounds (Quote : Str → Str)
    (SprintfInt : Str → List Int → Str) (c : HTTPCheck)
    (hvalid : c.Validate Quote = none) :
    (c.StatusCodeRange = [] ∨ c.StatusCodeRange.length = 2)
    ∧ (c.StatusCodeRange ≠ [] →
        ∃ lo hi, c.StatusCodeRange[0]? = some lo ∧ c.StatusCodeRange[1]? = some hi)
    ∧ ∀ (got : HTTPResult) (msg : Str), c.Execute Quote SprintfInt got ≠ .panic msg := by
  have hrange := Validate_nil_range Quote c hvalid
  have hidx : c.StatusCodeRange ≠ [] →
      ∃ lo hi, c.StatusCodeRange[0]? = some lo ∧ c.StatusCodeRange[1]? = some hi := by
    intro hne
    rcases hrange with h | h
    · exact absurd h hne
    · match hc : c.StatusCodeRange, h with
      | [lo, hi], _ => exact ⟨lo, hi, rfl, rfl⟩
  refine ⟨hrange, hidx, ?_⟩
  intro got msg
  unfold HTTPCheck.Execute
  cases got with
  | failed err => simp
  | response status body =>
    have hrest : ∀ r : Run (Option Str),
        r = (match body with
          | .error err => Run.done (some (Sprintf Quote
              "unable to read response body: %s".toList [err]))
          | .ok body =>
            if c.BodyContainsString ≠ [] ∧ ¬ c.BodyContainsString <:+: body then
              Run.done (some (Sprintf Quote
                "expected to find string %q in body but did not".toList
                [c.BodyContainsString]))
            else if c.BodyDoesNotContainString ≠ [] ∧ c.BodyDoesNotContainString <:+: body then
              Run.done (some (Sprintf Quote
                "found string %q in body, expected not to".toList
                [c.BodyDoesNotContainString]))
            else Run.done none) → r ≠ .panic msg := by
      intro r hr
      rw [hr]
      cases body with
      | error err => simp
      | ok b => simp only; split_ifs <;> simp
    simp only
    split_ifs with h1 h2
    · simp
    · obtain ⟨lo, hi, hlo, hhi⟩ := hidx (by
        intro h; exact h2 (by simp [h]))
      simp only [hlo, hhi]
      split_ifs
      · simp
      · simp
      · exact hrest _ rfl
    · exact hrest _ rfl

/-- Witness of C20: a check with the range 200..299. -/
theorem HTTPCheck_Execute_in_bounds_witness :
    (sampleRangeCheck.StatusCodeRange = [] ∨ sampleRangeCheck.StatusCodeRange.length = 2)
    ∧ (sampleRangeCheck.StatusCodeRange ≠ [] →
        ∃ lo hi, sampleRangeCheck.StatusCodeRange[0]? = some lo
          ∧ sampleRangeCheck.StatusCodeRange[1]? = some hi)
    ∧ ∀ (got : HTTPResult) (msg : Str),
        sampleRangeCheck.Execute sampleQuote sampleSprintfInt got ≠ .panic msg :=
  HTTPCheck_Execute_in_bounds sampleQuote sampleSprintfInt sampleRangeCheck (by decide)

/-- Without validation the index expressions can fail: a range of one element
makes `Execute` panic. -/
theorem HTTPCheck_Execute_panics_on_short_range :
    ({ sampleRangeCheck with StatusCodeRange := [200] } : HTTPCheck).Execute sampleQuote
        sampleSprintfInt (.response 200 (.ok []))
      = .panic "runtime error: index out of range".toList := by
  decide

end CheckTheorems


/-! ## Command output -/

section OutputTheorems

theorem Split_ne_nil (s : Str) (sep : Char) : Split s sep ≠ [] := by
  cases s with
  | nil => simp [Split]
  | cons c cs =>
    unfold Split
    split_ifs
    · simp
    · split <;> simp

/-- A string with a character outside the cutset is not trimmed to nothing. -/
theorem Trim_ne_nil (s cutset : Str) (c : Char) (hc : c ∈ s) (hcut : c ∉ cutset) :
    Trim s cutset ≠ [] := by
  intro h
  obtain ⟨pre, post, hs, hpre, hpost⟩ := Trim_decomp s cutset
  rw [h, List.append_nil] at hs
  rw [hs] at hc
  rcases List.mem_append.mp hc with h1 | h1
  · exact hcut (hpre c h1)
  · exact hcut (hpost c h1)

theorem Split_head (s : Str) (sep c : Char) (hs : s.head? = some c) (hc : c ≠ sep) :
    ∃ l, (Split s sep).head? = some l ∧ c ∈ l := by
  cases s with
  | nil => cases hs
  | cons d ds =>
    simp only [List.head?_cons, Option.some.injEq] at hs
    subst hs
    unfold Split
    rw [if_neg hc]
    split
    · exact ⟨[d], rfl, by simp⟩
    · rename_i p ps _
      exact ⟨d :: p, rfl, by simp⟩

theorem Split_getLast (s : Str) (sep d : Char) (hs : s.getLast? = some d) (hd : d ≠ sep) :
    ∃ l, (Split s sep).getLast? = some l ∧ d ∈ l := by
  induction s with
  | nil => cases hs
  | cons c cs ih =>
    cases cs with
    | nil =>
      simp only [List.getLast?_singleton, Option.some.injEq] at hs
      subst hs
      exact ⟨[c], by simp [Split, hd], by simp⟩
    | cons e es =>
      have hs2 : (e :: es).getLast? = some d := by
        rw [List.getLast?_cons_cons] at hs
        exact hs
      obtain ⟨l, hl, hdl⟩ := ih hs2
      unfold Split
      split_ifs with hsep
      · refine ⟨l, ?_, hdl⟩
        have hne := Split_ne_nil (e :: es) sep
        obtain ⟨q, qs, hq⟩ := List.exists_cons_of_ne_nil hne
        rw [hq] at hl ⊢
        rw [List.getLast?_cons_cons]
        exact hl
      · split
        · rename_i hnil
          exact absurd hnil (Split_ne_nil _ _)
        · rename_i p ps hq
          rw [hq] at hl
          cases ps with
          | nil =>
            simp only [List.getLast?_singleton, Option.some.injEq] at hl
            subst hl
            exact ⟨c :: p, by simp, List.mem_cons_of_mem _ hdl⟩
          | cons r rs =>
            rw [List.getLast?_cons_cons] at hl
            exact ⟨l, by rw [List.getLast?_cons_cons]; exact hl, hdl⟩

/-- Every element of `Output.Lines` is trimmed: it neither starts nor ends
with a space, tab, carriage return or newline. -/
theorem Lines_trimmed (o : Output) (l : Str) (hl : l ∈ o.Lines) :
    (∀ c, l.head? = some c → c ∉ wsChars) ∧ (∀ c, l.getLast? = some c → c ∉ wsChars) := by
  unfold Output.Lines at hl
  obtain ⟨raw, _, rfl⟩ := List.mem_map.mp hl
  exact ⟨Trim_head raw wsChars, Trim_getLast raw wsChars⟩

/-- For an output that is not blank, the first and the last element of
`Output.Lines` are not empty. -/
theorem Lines_ends_of_not_blank (o : Output) (h : o.String ≠ []) :
    o.Lines.head? ≠ some [] ∧ o.Lines.getLast? ≠ some [] := by
  have hnl : ('\n' : Char) ∈ wsChars := by decide
  constructor
  · obtain ⟨c, cs, hcs⟩ := List.exists_cons_of_ne_nil h
    have hc : c ∉ wsChars := Trim_head o.buffer wsChars c (by
      show o.String.head? = some c
      rw [hcs]; rfl)
    have hsep : c ≠ '\n' := fun e => hc (e ▸ hnl)
    obtain ⟨l, hl, hcl⟩ := Split_head o.String '\n' c (by rw [hcs]; rfl) hsep
    unfold Output.Lines
    rw [List.head?_map, hl]
    simp only [Option.map_some', ne_eq, Option.some.injEq]
    exact Trim_ne_nil l wsChars c hcl hc
  · obtain ⟨d, hd⟩ : ∃ d, o.String.getLast? = some d := by
      cases hg : o.String.getLast? with
      | none => exact absurd (List.getLast?_eq_none_iff.mp hg) h
      | some d => exact ⟨d, rfl⟩
    have hdw : d ∉ wsChars := Trim_getLast o.buffer wsChars d hd
    have hsep : d ≠ '\n' := fun e => hdw (e ▸ hnl)
    obtain ⟨l, hl, hdl⟩ := Split_getLast o.String '\n' d hd hsep
    unfold Output.Lines
    rw [List.getLast?_map, hl]
    simp only [Option.map_some', ne_eq, Option.some.injEq]
    exact Trim_ne_nil l wsChars d hdl hdw

/-- C17, the code at the failing inputs: for the empty output and for an
output of white space only, `Output.Lines` is the one-element slice whose
element is the empty string, so its first and last element is empty. -/
theorem Lines_of_blank_output :
    (Output.mk []).Lines = [[]]
    ∧ (Output.mk " \n\t \r\n".toList).Lines = [[]]
    ∧ (Output.mk []).Lines.head? = some []
    ∧ (Output.mk []).Lines.getLast? = some [] := by
  decide

theorem foldl_append_rows (f : Str → List Str) (lines : List Str) (rows : List (List Str)) :
    lines.foldl (fun rows line => rows ++ [f line]) rows = rows ++ lines.map f := by
  induction lines generalizing rows with
  | nil => simp
  | cons l ls ih => simp [ih]

/-- `Output.Table` is as many nil rows as there are lines, followed by the
cells of every line, empty lines included; so it always holds a nil row. -/
theorem Table_eq (o : Output) :
    o.Table = List.replicate o.Lines.length [] ++ o.Lines.map whitespaceSplit
    ∧ o.Table.length = 2 * o.Lines.length
    ∧ [] ∈ o.Table := by
  have h1 : o.Table = List.replicate o.Lines.length [] ++ o.Lines.map whitespaceSplit := by
    simp only [Output.Table, foldl_append_rows]
  have hpos : o.Lines ≠ [] := by
    unfold Output.Lines
    simp [Split_ne_nil]
  refine ⟨h1, ?_, ?_⟩
  · rw [h1]; simp; omega
  · rw [h1]
    apply List.mem_append_left
    rw [List.mem_replicate]
    exact ⟨by simpa [List.length_eq_zero] using hpos, rfl⟩

/-- C18, the code at two failing inputs.  The one-line output `a b` gives two
rows, the first of them nil.  The output `a`, empty line, `b` gives six rows:
three nil rows, and a row for the empty line between those of `a` and `b`. -/
theorem Table_of_sample_outputs :
    (Output.mk "a b\n".toList).Lines = ["a b".toList]
    ∧ (Output.mk "a b\n".toList).Table = [[], ["a".toList, "b".toList]]
    ∧ (Output.mk "a\n\nb".toList).Lines = ["a".toList, [], "b".toList]
    ∧ (Output.mk "a\n\nb".toList).Table
        = [[], [], [], ["a".toList], [[]], ["b".toList]] := by
  decide

end OutputTheorems

/-! ## Commands -/

section CommandTheorems

/-- C19. `Succeed` returns nil exactly when the command started and `Wait`
returned no error; `Fail` returns nil exactly when the command started and
`Wait` returned an error; so for a command that started exactly one of the two
returns nil; and for a command that did not start both return an error and
`ExitCode` returns -1 with the error of `Start`. -/
theorem Command_Succeed_Fail (Quote : Str → Str) (c : Command) :
    (∀ o, c.Succeed Quote o = none
      ↔ ∃ stdout stderr combined, o = .finished none stdout stderr combined)
    ∧ (∀ o, c.Fail Quote o = none
      ↔ ∃ e stdout stderr combined, o = .finished (some e) stdout stderr combined)
    ∧ (∀ w stdout stderr combined,
        (c.Succeed Quote (.finished w stdout stderr combined) = none
          ∧ c.Fail Quote (.finished w stdout stderr combined) ≠ none)
        ∨ (c.Succeed Quote (.finished w stdout stderr combined) ≠ none
          ∧ c.Fail Quote (.finished w stdout stderr combined) = none))
    ∧ (∀ err, c.Succeed Quote (.startFailed err) ≠ none
        ∧ c.Fail Quote (.startFailed err) ≠ none
        ∧ c.ExitCode (.startFailed err) = (-1, some err)) := by
  refine ⟨?_, ?_, ?_, ?_⟩
  · intro o
    cases o with
    | startFailed err => simp [Command.Succeed, Command.SucceedResult, Command.Result]
    | finished w stdout stderr combined =>
      cases w <;> simp [Command.Succeed, Command.SucceedResult, Command.Result]
  · intro o
    cases o with
    | startFailed err => simp [Command.Fail, Command.FailResult, Command.Result]
    | finished w stdout stderr combined =>
      cases w <;> simp [Command.Fail, Command.FailResult, Command.Result]
  · intro w stdout stderr combined
    cases w <;>
      simp [Command.Succeed, Command.SucceedResult, Command.Fail, Command.FailResult,
        Command.Result]
  · intro err
    simp [Command.Succeed, Command.SucceedResult, Command.Fail, Command.FailResult,
      Command.Result, Command.ExitCode]

end CommandTheorems

end Sous
